import Mathlib

/-!
A verification development for the airflow-etl DAG scripts.

The Python sources under `dags/` are shallowly embedded: program strings become
`List Char`, the filesystem becomes an explicit record of file entries and
directories, network and archive-extraction effects become oracle parameters,
and Python exceptions become an explicit error type threaded through every
operation.  The module `dags/utils/file_ops.py` is embedded as a record of
optional attributes, so that Python's behaviour of raising `AttributeError`
for a missing module attribute is captured faithfully.
-/

namespace AirflowEtl

/-- Program strings are modelled as lists of characters. -/
abbrev Str := List Char

/-! ### Literal text replacement (`re.sub` with a literal pattern) -/

/-- Structural worker for `replaceAll`, recursing on explicit fuel so that the
definition is a plain structural recursion (and hence computes by kernel
reduction).  The fuel never runs out when it starts at the length of the
text. -/
def replaceAllF (p r : Str) : Nat → Str → Str
  | _, [] => []
  | 0, s => s
  | fuel + 1, c :: rest =>
    if p.isPrefixOf (c :: rest) ∧ p ≠ [] then
      r ++ replaceAllF p r fuel (rest.drop (p.length - 1))
    else
      c :: replaceAllF p r fuel rest

/-- `replaceAll p r s` replaces every non-overlapping occurrence of `p` in `s`
by `r`, scanning left to right.  This models Python `re.sub(p, r, s)` for the
literal, regex-metacharacter-free patterns used by `generate_model_config`
(equivalently Python `str.replace`), for replacement strings without backslash
escape sequences.  The empty pattern, which the program never uses, is mapped
to the identity. -/
def replaceAll (p r s : Str) : Str :=
  replaceAllF p r s.length s

/-! ### Non-overlap of a placeholder token with a replacement text -/

/-- `NoOverlap a b` states that `a` and `b` cannot overlap inside a larger
text: neither is an infix of the other, no nonempty suffix of `a` is a prefix
of `b`, and no nonempty proper prefix of `a` is a suffix of `b`.  This is the
precise form of the spec's guarantee that the placeholder tokens are
"non-overlapping and non-recursive" with respect to each other and to the
substituted values.  The bounded quantifiers keep the predicate decidable, so
concrete instances can be checked by evaluation. -/
def NoOverlap (a b : Str) : Prop :=
  (¬ a <:+: b) ∧ (¬ b <:+: a) ∧
  (∀ k, k < a.length → ¬ (a.drop k <+: b)) ∧
  (∀ k, k < a.length → 0 < k → ¬ (a.take k <:+ b))

instance (a b : Str) : Decidable (NoOverlap a b) := by
  unfold NoOverlap
  infer_instance

/-! ### Chains of substitutions -/

/-- A sequence of literal substitutions applied left to right, as performed by
`generate_model_config` on the pipeline-config template. -/
def substChain : List (Str × Str) → Str → Str
  | [], s => s
  | pr :: rest, s => substChain rest (replaceAll pr.1 pr.2 s)

/-! ### The pipeline-config text transform of `generate_model_config`
(`prepare_model_and_data_for_training.py`, lines 518-592) -/

/-- Source line 553: `f"{bucket_url}/{model_folder_ts}/model/base/model.ckpt"`. -/
def pre_trained_model_checkpoint_path (bucket_url model_folder_ts : Str) : Str :=
  bucket_url ++ ("/").toList ++ model_folder_ts ++ ("/model/base/model.ckpt").toList

/-- Source line 554: `f"{bucket_url}/{model_folder_ts}/data/tf_records/labelmap.pbtxt"`. -/
def label_map_path (bucket_url model_folder_ts : Str) : Str :=
  bucket_url ++ ("/").toList ++ model_folder_ts ++ ("/data/tf_records/labelmap.pbtxt").toList

/-- Source line 555: `f"{bucket_url}/{model_folder_ts}/data/tf_records/train/*.record"`. -/
def train_tf_record_path (bucket_url model_folder_ts : Str) : Str :=
  bucket_url ++ ("/").toList ++ model_folder_ts ++ ("/data/tf_records/train/*.record").toList

/-- Source line 556: `f"{bucket_url}/{model_folder_ts}/data/tf_records/val/*.record"`. -/
def val_tf_record_path (bucket_url model_folder_ts : Str) : Str :=
  bucket_url ++ ("/").toList ++ model_folder_ts ++ ("/data/tf_records/val/*.record").toList

/-- The seven placeholder tokens, in the order the source substitutes them
(lines 563-579). -/
def substTokens : List Str :=
  [("NUM_CLASSES").toList, ("PRE_TRAINED_MODEL_CHECKPOINT_PATH").toList,
   ("LABEL_MAP_PATH").toList, ("TRAIN_TF_RECORD_PATH").toList,
   ("VAL_TF_RECORD_PATH").toList, ("TRAINING_BATCH_SIZE").toList,
   ("TRAINING_EPOCH_COUNT").toList]

/-- The (placeholder, replacement) pairs of `generate_model_config`, in
substitution order.  `num_classes`, `training_batch_size` and
`training_epoch_count` are strings in the source (its `str()` is the
identity on them). -/
def configSubstPairs (model_folder_ts num_classes bucket_url
    training_batch_size training_epoch_count : Str) : List (Str × Str) :=
  [(("NUM_CLASSES").toList, num_classes),
   (("PRE_TRAINED_MODEL_CHECKPOINT_PATH").toList,
     pre_trained_model_checkpoint_path bucket_url model_folder_ts),
   (("LABEL_MAP_PATH").toList, label_map_path bucket_url model_folder_ts),
   (("TRAIN_TF_RECORD_PATH").toList, train_tf_record_path bucket_url model_folder_ts),
   (("VAL_TF_RECORD_PATH").toList, val_tf_record_path bucket_url model_folder_ts),
   (("TRAINING_BATCH_SIZE").toList, training_batch_size),
   (("TRAINING_EPOCH_COUNT").toList, training_epoch_count)]

/-- The replacement values, in substitution order: `num_classes`, the four
interpolated paths, `training_batch_size`, `training_epoch_count`. -/
def configSubstValues (model_folder_ts num_classes bucket_url
    training_batch_size training_epoch_count : Str) : List Str :=
  (configSubstPairs model_folder_ts num_classes bucket_url
    training_batch_size training_epoch_count).map Prod.snd

/-- The pure text transform of `generate_model_config` (source lines 563-579):
the seven literal `re.sub` substitutions applied to the template text, left to
right in source order. -/
def generate_model_config_text (model_folder_ts model_config_template num_classes
    bucket_url training_batch_size training_epoch_count : Str) : Str :=
  substChain
    (configSubstPairs model_folder_ts num_classes bucket_url
      training_batch_size training_epoch_count)
    model_config_template

/-! ### Python errors and the filesystem model -/

/-- The Python exceptions the embedded code can raise (plus `notFoundError`,
the labeling-service exception type named by the spec, which the embedded code
never raises). -/
inductive PyError where
  | attributeError (attr : Str)
  | indexError
  | keyError (key : Str)
  | typeError (msg : Str)
  | valueError (msg : Str)
  | nameError (name : Str)
  | ioError
  | fileNotFoundError
  | notFoundError (msg : Str)
  | requestException
deriving DecidableEq

/-- A regular file: directory path, file name, content, and stat modification
time (the latter matters because `filecmp.cmp` defaults to comparing stat
signatures). -/
structure FileEntry where
  dir : Str
  fname : Str
  content : Str
  mtime : Nat
deriving DecidableEq

/-- One catalog row of the persisted base-model CSV, with columns
`model_release_date, model_folder_name, model_file_name, model_url,
model_name`. -/
structure CatalogRow where
  model_release_date : Option Str
  model_folder_name : Str
  model_file_name : Str
  model_url : Str
  model_name : Str
deriving DecidableEq

/-- The filesystem: regular files (in directory-enumeration order, which fixes
the order `glob` reports matches), directories, the CSV store (a parsed view
of CSV files, `pandas.read_csv`/`DataFrame.to_csv` being external), and a
clock used to stamp modification times of fresh writes. -/
structure FS where
  entries : List FileEntry
  dirs : List Str
  csvs : List (Str × List CatalogRow)
  clock : Nat
deriving DecidableEq

/-- Result of one stateful Python call: Python exceptions do not roll back
side effects, so both outcomes carry the filesystem. -/
inductive PyResult (α : Type) where
  | ok (a : α) (fs : FS)
  | err (e : PyError) (fs : FS)
deriving DecidableEq

/-- Content of the file `dir/fname`, if present (first match in enumeration
order). -/
def FS.read (fs : FS) (dir fname : Str) : Option Str :=
  (fs.entries.find? (fun e => e.dir == dir && e.fname == fname)).map FileEntry.content

/-- The full entry of the file `dir/fname`, if present. -/
def FS.lookup (fs : FS) (dir fname : Str) : Option FileEntry :=
  fs.entries.find? (fun e => e.dir == dir && e.fname == fname)

/-- Worker for `FS.upsert`: replace the first entry keyed `dir/fname` in
place, or append a fresh entry. -/
def upsertList : List FileEntry → Str → Str → Str → Nat → List FileEntry
  | [], dir, fname, content, mtime => [⟨dir, fname, content, mtime⟩]
  | e :: es, dir, fname, content, mtime =>
    if e.dir == dir && e.fname == fname then ⟨dir, fname, content, mtime⟩ :: es
    else e :: upsertList es dir fname content mtime

/-- Create or overwrite `dir/fname` (in place when it exists, appended
otherwise). -/
def FS.upsert (fs : FS) (dir fname content : Str) (mtime : Nat) : FS :=
  { fs with entries := upsertList fs.entries dir fname content mtime }

/-- `open(path, "w")` followed by writing `content`: stamps the current clock
as modification time and advances the clock. -/
def FS.write (fs : FS) (dir fname content : Str) : FS :=
  { (fs.upsert dir fname content fs.clock) with clock := fs.clock + 1 }

/-- `os.remove` of `dir/fname`. -/
def FS.remove (fs : FS) (dir fname : Str) : FS :=
  { fs with entries := fs.entries.filter (fun e => !(e.dir == dir && e.fname == fname)) }

/-- `file_ops.folder_exist_or_create` / `os.mkdir`: ensure the directory is
present.  (`os.makedirs` also creates missing parents; no claim depends on
the parent directories, so only the directory itself is recorded.) -/
def FS.mkdirEnsure (fs : FS) (d : Str) : FS :=
  if d ∈ fs.dirs then fs else { fs with dirs := fs.dirs ++ [d] }

/-- Parsed view of the CSV file at `path`, if present (`pandas.read_csv`). -/
def FS.readCsv (fs : FS) (path : Str) : Option (List CatalogRow) :=
  (fs.csvs.find? (fun pr => pr.1 == path)).map Prod.snd

/-- Worker for `FS.writeCsv`. -/
def writeCsvList : List (Str × List CatalogRow) → Str → List CatalogRow →
    List (Str × List CatalogRow)
  | [], path, rows => [(path, rows)]
  | pr :: prs, path, rows =>
    if pr.1 == path then (path, rows) :: prs
    else pr :: writeCsvList prs path rows

/-- `DataFrame.to_csv(path)`: create or overwrite the CSV at `path`. -/
def FS.writeCsv (fs : FS) (path : Str) (rows : List CatalogRow) : FS :=
  { fs with csvs := writeCsvList fs.csvs path rows }

/-- The file-name part of a path: everything after the last `/`. -/
def pathBasename (p : Str) : Str :=
  ((p.reverse.takeWhile (fun c => !(c == '/'))).reverse)

/-- `d` is a directory entry directly below `root`:
`d = root ++ "/" ++ name` with a nonempty, slash-free `name`. -/
def isDirectChildOf (root d : Str) : Bool :=
  (root ++ [('/' : Char)]).isPrefixOf d &&
    (!((d.drop (root.length + 1)).isEmpty) && !((d.drop (root.length + 1)).contains '/'))

/-- The directories directly below `root`, in enumeration order. -/
def childDirs (fs : FS) (root : Str) : List Str :=
  fs.dirs.filter (fun d => isDirectChildOf root d)

/-- `glob.glob(dir + "/*" ++ suffix)` (equivalently `dir + "*" ++ suffix` for a
`dir` carrying a trailing separator, since `glob` treats `//` as `/`): the
regular files directly under `dir` whose name ends with `suffix`, in
enumeration order.  Matches are returned as their file entries, which stand
for the matched pathnames `dir ++ "/" ++ name`. -/
def FS.glob (fs : FS) (dir suffix : Str) : List FileEntry :=
  fs.entries.filter (fun e => e.dir == dir && suffix.isSuffixOf e.fname)

/-- `os.path.join(a, b)` for a relative `b` (posix). -/
def pathJoin (a b : Str) : Str :=
  a ++ ('/' :: b)

/-- Python's substring test `needle in hay`. -/
def isSubstring : Str → Str → Bool
  | needle, [] => needle.isEmpty
  | needle, c :: rest => needle.isPrefixOf (c :: rest) || isSubstring needle rest

/-! ### The `utils.file_ops` module

`src/dags/utils/file_ops.py` defines `get_parent_folder_name`,
`get_files_in_directory`, `get_filename`, `get_object_name_from_file`,
`get_ontology_name_from_file`, `get_source_feed_from_folder_name`,
`get_filenames_in_directory`, `get_sub_folders_list`, `gcs_path_to_local_path`,
`concat_json`, `folder_exist_or_create` and `file_exist` — and nothing else.
The helpers `get_directory_subfolders_subset`, `get_subfolders_in_directory`,
`get_subfolders_names_in_directory` and `copy_files_from_folder` that the
assembly/sync stage calls are *not* among them, so in Python every access
`file_ops.<helper>` raises `AttributeError`.  The module is therefore embedded
as a record of optional attributes: `fileOpsAsIs` is the module as shipped
(all four helpers absent), and `fileOpsSpec` supplies implementations modelled
from the spec so the bodies behind the failing attribute accesses can still be
analysed. -/
structure FileOpsModule where
  get_directory_subfolders_subset : Option (FS → Str → Str → List Str)
  get_subfolders_in_directory : Option (FS → Str → List Str)
  get_subfolders_names_in_directory : Option (FS → Str → List Str)
  copy_files_from_folder : Option (FS → Str → Str → FS)

/-- The `file_ops` module as it exists in the source: none of the four helpers
is defined, so each access raises `AttributeError`. -/
def fileOpsAsIs : FileOpsModule :=
  ⟨none, none, none, none⟩

/-- Modelled from the spec: `get_directory_subfolders_subset` is called
throughout the assembly stage but is missing from `file_ops.py`.  Per the spec
("locate subfolders under a labeled-output root whose names contain a given
source-filter substring"; glossary: a source filter is "a substring used to
select which per-data-source subfolders participate") it returns the
subfolders of `root` whose names contain `source_filter`.  Following the
trailing-separator convention of the module's existing `get_sub_folders_list`
(`glob(join(dir_path, "*", ""))`), callers may append either `"*.pbtxt"` or
`"/*.pbtxt"` to a returned path to glob inside the subfolder; the returned
directories are identified canonically here and the glob calls are modelled by
`FS.glob`. -/
def spec_get_directory_subfolders_subset (fs : FS) (root source_filter : Str) :
    List Str :=
  (childDirs fs root).filter (fun d => isSubstring source_filter (pathBasename d))

/-- Modelled from the spec: `get_subfolders_in_directory` (missing from
`file_ops.py`) lists the subfolder paths of a directory, as its caller
`copy_images_to_output` filters them with `endswith("images")` and descends
into them. -/
def spec_get_subfolders_in_directory (fs : FS) (dir : Str) : List Str :=
  childDirs fs dir

/-- Modelled from the spec: `get_subfolders_names_in_directory` (missing from
`file_ops.py`) lists the *names* of the subfolders of a directory, as its
caller `download_and_extract_base_model` tests catalog `model_folder_name`
values for membership ("list existing subfolders", the folder name being the
key of a base-model archive). -/
def spec_get_subfolders_names_in_directory (fs : FS) (dir : Str) : List Str :=
  (childDirs fs dir).map pathBasename

/-- Modelled from the spec: `copy_files_from_folder` (missing from
`file_ops.py`) copies every file of the source folder into the destination
folder ("copy all files from it into a flat destination folder"), keeping file
names and overwriting name collisions. -/
def spec_copy_files_from_folder (fs : FS) (src dst : Str) : FS :=
  (fs.entries.filter (fun e => e.dir == src)).foldl
    (fun acc e => acc.upsert dst e.fname e.content e.mtime) fs

/-- The `file_ops` module completed with the spec-modelled helpers. -/
def fileOpsSpec : FileOpsModule :=
  ⟨some spec_get_directory_subfolders_subset,
   some spec_get_subfolders_in_directory,
   some spec_get_subfolders_names_in_directory,
   some spec_copy_files_from_folder⟩

/-! ### `compare_label_map_file` (source lines 155-188) -/

/-- `filecmp.cmp(f1, f2)` with its default `shallow=True`: if the stat
signatures (type, size, mtime) agree the files are reported equal without
reading them; otherwise differing sizes report unequal, and equal sizes fall
through to a byte comparison. -/
def filecmpCmp (f1 f2 : FileEntry) : Bool :=
  if f1.content.length == f2.content.length && f1.mtime == f2.mtime then true
  else if !(f1.content.length == f2.content.length) then false
  else f1.content == f2.content

/-- The collection loop of `compare_label_map_file`:
`label_maps.append(glob.glob(subfolder + "*.pbtxt")[0])` for each subfolder —
`none` when some subfolder has no `.pbtxt` file (the `[0]` raises
`IndexError`). -/
def collectFirstPbtxt (fs : FS) : List Str → Option (List FileEntry)
  | [] => some []
  | d :: ds =>
    match fs.glob d (".pbtxt").toList with
    | [] => none
    | e :: _ => (collectFirstPbtxt fs ds).map (fun l => e :: l)

/-- `compare_label_map_file(base_tf_record_folder, video_source)`: lists the
source-filtered subfolders; with two or more, takes the first `.pbtxt` of each
and compares every one against the first with `filecmp.cmp`, returning the
overall verdict; with fewer than two it logs a warning and returns `None`. -/
def compare_label_map_file (m : FileOpsModule)
    (base_tf_record_folder video_source : Str) (fs : FS) : PyResult (Option Bool) :=
  match m.get_directory_subfolders_subset with
  | none => .err (.attributeError ("get_directory_subfolders_subset").toList) fs
  | some gdss =>
    let subfolders := gdss fs base_tf_record_folder video_source
    if subfolders.length > 1 then
      match collectFirstPbtxt fs subfolders with
      | none => .err .indexError fs
      | some [] => .err .indexError fs
      | some (reference :: restMaps) =>
        .ok (some ((reference :: restMaps).all (fun lm => filecmpCmp lm reference))) fs
    else
      .ok none fs

/-! ### TFRecord merges (source lines 341-441) -/

/-- A `shutil.copy2(src, dst_folder)` loop over source files (given as
directory/name pairs): each file's current content and modification time are
copied into the destination folder under the same name; a missing source
raises `FileNotFoundError`. -/
def copyFilesLoop : List (Str × Str) → Str → FS → PyResult Unit
  | [], _, fs => .ok () fs
  | (d, n) :: rest, dst, fs =>
    match fs.lookup d n with
    | none => .err .fileNotFoundError fs
    | some e => copyFilesLoop rest dst (fs.upsert dst n e.content e.mtime)

/-- `copy_tf_records_to_training_folder(tf_records_folder,
model_training_tf_records_folder, video_source)`: creates the `train` and
`val` destination folders, collects `*.pbtxt`, `*_train.record` and
`*_val.record` files across the source-filtered subfolders, copies the train
and val records into their destination folders, then writes
`labelmap.pbtxt` from `labelmap_files[0]` — the destination is opened for
writing (creating an empty file) before the `[0]` indexing, which raises
`IndexError` when no label map was found. -/
def copy_tf_records_to_training_folder (m : FileOpsModule)
    (tf_records_folder model_training_tf_records_folder video_source : Str)
    (fs : FS) : PyResult Unit :=
  let training_tf_records_train_folder :=
    model_training_tf_records_folder ++ ("/train").toList
  let training_tf_records_val_folder :=
    model_training_tf_records_folder ++ ("/val").toList
  let fs1 := (fs.mkdirEnsure training_tf_records_train_folder).mkdirEnsure
    training_tf_records_val_folder
  match m.get_directory_subfolders_subset with
  | none => .err (.attributeError ("get_directory_subfolders_subset").toList) fs1
  | some gdss =>
    let subfolders := gdss fs1 tf_records_folder video_source
    let labelmap_files := subfolders.bind (fun d => fs1.glob d (".pbtxt").toList)
    let tf_record_train_files :=
      subfolders.bind (fun d => fs1.glob d ("_train.record").toList)
    let tf_record_val_files :=
      subfolders.bind (fun d => fs1.glob d ("_val.record").toList)
    match copyFilesLoop (tf_record_train_files.map (fun e => (e.dir, e.fname)))
        training_tf_records_train_folder fs1 with
    | .err e fs2 => .err e fs2
    | .ok _ fs2 =>
      match copyFilesLoop (tf_record_val_files.map (fun e => (e.dir, e.fname)))
          training_tf_records_val_folder fs2 with
      | .err e fs3 => .err e fs3
      | .ok _ fs3 =>
        let fs4 := fs3.write model_training_tf_records_folder ("labelmap.pbtxt").toList []
        match labelmap_files with
        | [] => .err .indexError fs4
        | lm :: _ =>
          match fs4.read lm.dir lm.fname with
          | none => .err .fileNotFoundError fs4
          | some content =>
            .ok ()
              (fs4.write model_training_tf_records_folder ("labelmap.pbtxt").toList content)

/-- The trainval concatenation loop of `copy_tf_records_to_model_repo`: with
the destination already opened for writing, `shutil.copyfileobj` appends each
source `.txt` file's content in turn. -/
def concatFilesLoop : List (Str × Str) → Str → Str → FS → PyResult Unit
  | [], _, _, fs => .ok () fs
  | (d, n) :: rest, dstDir, dstName, fs =>
    match fs.lookup d n with
    | none => .err .fileNotFoundError fs
    | some e =>
      let cur := (fs.read dstDir dstName).getD []
      concatFilesLoop rest dstDir dstName (fs.write dstDir dstName (cur ++ e.content))

/-- `copy_tf_records_to_model_repo(tf_records_folder,
model_repo_tf_records_folder, video_source)`: as the training variant, and
additionally concatenates every `*.txt` file across the subfolders into a
single `trainval.txt`. -/
def copy_tf_records_to_model_repo (m : FileOpsModule)
    (tf_records_folder model_repo_tf_records_folder video_source : Str)
    (fs : FS) : PyResult Unit :=
  let model_repo_tf_record_train_folder :=
    model_repo_tf_records_folder ++ ("/train").toList
  let model_repo_tf_records_val_folder :=
    model_repo_tf_records_folder ++ ("/val").toList
  let fs1 := (fs.mkdirEnsure model_repo_tf_record_train_folder).mkdirEnsure
    model_repo_tf_records_val_folder
  match m.get_directory_subfolders_subset with
  | none => .err (.attributeError ("get_directory_subfolders_subset").toList) fs1
  | some gdss =>
    let subfolders := gdss fs1 tf_records_folder video_source
    let labelmap_files := subfolders.bind (fun d => fs1.glob d (".pbtxt").toList)
    let trainval_files := subfolders.bind (fun d => fs1.glob d (".txt").toList)
    let tf_record_train_files :=
      subfolders.bind (fun d => fs1.glob d ("_train.record").toList)
    let tf_record_val_files :=
      subfolders.bind (fun d => fs1.glob d ("_val.record").toList)
    match copyFilesLoop (tf_record_train_files.map (fun e => (e.dir, e.fname)))
        model_repo_tf_record_train_folder fs1 with
    | .err e fs2 => .err e fs2
    | .ok _ fs2 =>
      match copyFilesLoop (tf_record_val_files.map (fun e => (e.dir, e.fname)))
          model_repo_tf_records_val_folder fs2 with
      | .err e fs3 => .err e fs3
      | .ok _ fs3 =>
        let fs4 := fs3.write model_repo_tf_records_folder ("labelmap.pbtxt").toList []
        match labelmap_files with
        | [] => .err .indexError fs4
        | lm :: _ =>
          match fs4.read lm.dir lm.fname with
          | none => .err .fileNotFoundError fs4
          | some content =>
            let fs5 :=
              fs4.write model_repo_tf_records_folder ("labelmap.pbtxt").toList content
            let fs6 := fs5.write model_repo_tf_records_folder ("trainval.txt").toList []
            concatFilesLoop (trainval_files.map (fun e => (e.dir, e.fname)))
              model_repo_tf_records_folder ("trainval.txt").toList fs6

/-! ### `download_and_extract_base_model` (source lines 112-152) -/

/-- Outcome of a `requests.get` call: a response with status code and raw
body, or a `requests.exceptions.RequestException`. -/
inductive NetResult where
  | resp (status : Nat) (raw : Str)
  | exn

/-- The per-model loop of `download_and_extract_base_model`: a model whose
folder name is among the existing subfolders is skipped (log only); otherwise
its folder is created and the archive is downloaded, written, extracted
(`shutil.unpack_archive`, whose filesystem effect is the oracle `unpack`) and
removed — a `RequestException` being caught and logged, and a non-200 status
leaving only the created folder. -/
def downloadLoop (net : Str → NetResult) (unpack : Str → Str → FS → FS)
    (base_model_folder : Str) (subfolders : List Str) :
    List CatalogRow → FS → FS
  | [], fs => fs
  | row :: rest, fs =>
    if row.model_folder_name ∈ subfolders then
      downloadLoop net unpack base_model_folder subfolders rest fs
    else
      let fs1 := fs.mkdirEnsure (pathJoin base_model_folder row.model_folder_name)
      match net row.model_url with
      | .exn => downloadLoop net unpack base_model_folder subfolders rest fs1
      | .resp status raw =>
        if status == 200 then
          let fs2 := fs1.write base_model_folder row.model_file_name raw
          let fs3 := unpack raw base_model_folder fs2
          let fs4 := fs3.remove base_model_folder row.model_file_name
          downloadLoop net unpack base_model_folder subfolders rest fs4
        else
          downloadLoop net unpack base_model_folder subfolders rest fs1

/-- `download_and_extract_base_model(base_model_csv, base_model_folder,
required_base_models)`: loads the catalog CSV, optionally filters it to the
requested model names (`isin`), lists the existing subfolder names, and runs
the download loop. -/
def download_and_extract_base_model (net : Str → NetResult)
    (unpack : Str → Str → FS → FS) (m : FileOpsModule)
    (base_model_csv base_model_folder : Str)
    (required_base_models : Option (List Str)) (fs : FS) : PyResult Unit :=
  match fs.readCsv base_model_csv with
  | none => .err .fileNotFoundError fs
  | some models_df =>
    let models_subset := match required_base_models with
      | none => models_df
      | some req => models_df.filter (fun r => req.contains r.model_name)
    match m.get_subfolders_names_in_directory with
    | none => .err (.attributeError ("get_subfolders_names_in_directory").toList) fs
    | some gsn =>
      let subfolders := gsn fs base_model_folder
      .ok () (downloadLoop net unpack base_model_folder subfolders models_subset fs)

/-! ### Base-model copies (source lines 444-515) -/

/-- `copy_base_model_to_training_folder(base_model, base_model_csv,
base_model_folder, model_training_base_model_folder)`: looks the model up in
the catalog by display name (`.loc[...] .iloc[0]`, an `IndexError` when the
name is absent), ensures the destination folder, copies the extracted model
folder's files, and deletes the copied `pipeline.config`. -/
def copy_base_model_to_training_folder (m : FileOpsModule)
    (base_model base_model_csv base_model_folder
     model_training_base_model_folder : Str) (fs : FS) : PyResult Unit :=
  match fs.readCsv base_model_csv with
  | none => .err .fileNotFoundError fs
  | some base_models_df =>
    match base_models_df.filter (fun r => r.model_name == base_model) with
    | [] => .err .indexError fs
    | row :: _ =>
      let model_folder := pathJoin base_model_folder row.model_folder_name
      let fs1 := fs.mkdirEnsure model_training_base_model_folder
      match m.copy_files_from_folder with
      | none => .err (.attributeError ("copy_files_from_folder").toList) fs1
      | some cff =>
        let fs2 := cff fs1 model_folder model_training_base_model_folder
        match fs2.lookup model_training_base_model_folder ("pipeline.config").toList with
        | none => .err .fileNotFoundError fs2
        | some _ =>
          .ok () (fs2.remove model_training_base_model_folder ("pipeline.config").toList)

/-- `copy_base_model_to_model_repo_folder`: identical to the training variant
up to the destination argument. -/
def copy_base_model_to_model_repo_folder (m : FileOpsModule)
    (base_model base_model_csv base_model_folder
     model_repo_base_model_folder : Str) (fs : FS) : PyResult Unit :=
  match fs.readCsv base_model_csv with
  | none => .err .fileNotFoundError fs
  | some base_models_df =>
    match base_models_df.filter (fun r => r.model_name == base_model) with
    | [] => .err .indexError fs
    | row :: _ =>
      let model_folder := pathJoin base_model_folder row.model_folder_name
      let fs1 := fs.mkdirEnsure model_repo_base_model_folder
      match m.copy_files_from_folder with
      | none => .err (.attributeError ("copy_files_from_folder").toList) fs1
      | some cff =>
        let fs2 := cff fs1 model_folder model_repo_base_model_folder
        match fs2.lookup model_repo_base_model_folder ("pipeline.config").toList with
        | none => .err .fileNotFoundError fs2
        | some _ =>
          .ok () (fs2.remove model_repo_base_model_folder ("pipeline.config").toList)

/-! ### `copy_images_to_output` (source lines 250-275) -/

/-- The per-subfolder loop of `copy_images_to_output`: list the subfolders,
keep those ending in `"images"`, take the first (`IndexError` when none), and
copy its files into the output folder. -/
def imagesLoop (m : FileOpsModule) (output_folder : Str) :
    List Str → FS → PyResult Unit
  | [], fs => .ok () fs
  | subfolder :: rest, fs =>
    match m.get_subfolders_in_directory with
    | none => .err (.attributeError ("get_subfolders_in_directory").toList) fs
    | some gsid =>
      let subfolders := (gsid fs subfolder).filter
        (fun d => ("images").toList.isSuffixOf d)
      match subfolders with
      | [] => .err .indexError fs
      | folder :: _ =>
        match m.copy_files_from_folder with
        | none => .err (.attributeError ("copy_files_from_folder").toList) fs
        | some cff => imagesLoop m output_folder rest (cff fs folder output_folder)

/-- `copy_images_to_output(labelbox_output_folder, output_folder,
video_source)`. -/
def copy_images_to_output (m : FileOpsModule)
    (labelbox_output_folder output_folder video_source : Str) (fs : FS) :
    PyResult Unit :=
  match m.get_directory_subfolders_subset with
  | none => .err (.attributeError ("get_directory_subfolders_subset").toList) fs
  | some gdss =>
    imagesLoop m output_folder (gdss fs labelbox_output_folder video_source) fs

/-! ### `generate_model_config` as an operation (source lines 518-592) -/

/-- The write loop of `generate_model_config` over
`[f"{model_training_folder}/pipeline.config",
f"{model_repo_folder}/pipeline.config"]`.  `writeFail` tells whether opening
or writing a given path raises `IOError`; in that case the handler
`except IOError as error:` logs and then executes `raise e` — but the name
`e` is unbound in that scope, so what actually propagates is
`NameError` for `e`, not the `IOError`. -/
def writeConfigLoop (writeFail : Str → Bool) (text : Str) :
    List (Str × Str) → FS → PyResult Unit
  | [], fs => .ok () fs
  | (dir, name) :: rest, fs =>
    if writeFail (pathJoin dir name) then
      .err (.nameError ("e").toList) fs
    else
      writeConfigLoop writeFail text rest (fs.write dir name text)

/-- `generate_model_config(...)`: computes the four canonical paths, performs
the seven token substitutions (`generate_model_config_text`), and writes the
resulting text to the training-tree and model-repo-tree `pipeline.config`
paths. -/
def generate_model_config (writeFail : Str → Bool)
    (model_training_folder model_repo_folder model_folder_ts model_config_template
     num_classes bucket_url training_batch_size training_epoch_count : Str)
    (fs : FS) : PyResult Unit :=
  let text := generate_model_config_text model_folder_ts model_config_template
    num_classes bucket_url training_batch_size training_epoch_count
  writeConfigLoop writeFail text
    [(model_training_folder, ("pipeline.config").toList),
     (model_repo_folder, ("pipeline.config").toList)] fs

/-! ### `validate_requested_model_exist_in_model_zoo_list`
(source lines 191-218) -/

/-- `validate_requested_model_exist_in_model_zoo_list(base_models_csv,
required_base_models)`: reads the catalog, takes the unique `model_name`
values, raises `ValueError` for an empty request list, raises `ValueError`
at the first requested name not among the available names, and otherwise logs
and returns.  (pandas `unique` keeps first occurrences; only membership in the
deduplicated names matters here.) -/
def validate_requested_model_exist_in_model_zoo_list
    (base_models_csv : Str) (required_base_models : List Str) (fs : FS) :
    PyResult Unit :=
  match fs.readCsv base_models_csv with
  | none => .err .fileNotFoundError fs
  | some df =>
    let available_models := (df.map CatalogRow.model_name).dedup
    if required_base_models.length ≤ 0 then
      .err (.valueError ("Airflow variable training_required_base_models should contain at least one model to train").toList) fs
    else
      match required_base_models.find? (fun r => !(available_models.contains r)) with
      | some _ =>
        .err (.valueError ("Required model {required_model} does not exist in the official tensorflow model zoo").toList) fs
      | none => .ok () fs

/-! ### Catalog refresh (source lines 20-110) -/

/-- An anchor node as extracted from the rendered catalog page by `mistune`
and `BeautifulSoup` (both external): its attributes and its text. -/
structure LinkNode where
  attrs : List (Str × Str)
  text : Str
deriving DecidableEq

/-- `node.attrs[key]` lookup (first binding). -/
def lookupAttr (attrs : List (Str × Str)) (key : Str) : Option Str :=
  (attrs.find? (fun pr => pr.1 == key)).map Prod.snd

/-- Python `str.strip()` whitespace. -/
def isPySpace (c : Char) : Bool :=
  c == ' ' || c == '\t' || c == '\n' || c == '\r' || c == '\x0b' || c == '\x0c'

/-- Python `str.strip()`. -/
def trimStr (s : Str) : Str :=
  ((s.dropWhile isPySpace).reverse.dropWhile isPySpace).reverse

/-- The stem of `os.path.splitext` on a separator-free name: cut at the last
`.` that has some non-dot character before it (leading dots never start an
extension), else return the name unchanged. -/
def splitextStem (s : Str) : Str :=
  match ((List.range s.length).filter (fun i =>
      s.getD i ' ' == '.' && (s.take i).any (fun c => !(c == '.')))).getLast? with
  | some i => s.take i
  | none => s

/-- The extension part of `os.path.splitext`. -/
def splitextPair (p : Str) : Str × Str :=
  (splitextStem p, p.drop (splitextStem p).length)

/-- `re.search(r"\d{4}_\d{2}_\d{2}", s)` tried at one position. -/
def dateMatchAt (s : Str) (i : Nat) : Bool :=
  match (s.drop i).take 10 with
  | [a, b, c, d, u1, e, f, u2, g, h] =>
    a.isDigit && b.isDigit && c.isDigit && d.isDigit && u1 == '_' &&
      e.isDigit && f.isDigit && u2 == '_' && g.isDigit && h.isDigit
  | _ => false

/-- The release-date extraction: `re.search(r"\d{4}_\d{2}_\d{2}", ...)` under a
bare `except:` — the leftmost match, or `None` when the pattern is absent. -/
def findDate8 (s : Str) : Option Str :=
  ((List.range s.length).find? (fun i => dateMatchAt s i)).map
    (fun i => (s.drop i).take 10)

/-- The fixed link prefix the parser filters on. -/
def dlPrefix : Str :=
  ("http://download.tensorflow.org/models/object_detection/").toList

/-- `__parse_downloaded_model_file_list_response`, over the anchor nodes of the
rendered page: for each link, `link.attrs["href"]` (a `KeyError` when the
anchor has no `href`) is tested against the fixed prefix; matching links
contribute a catalog row with the decorated star stripped from the display
name, the URL's last segment as file name, the doubly-`splitext`-ed folder
name, and the optional 8-digit release date. -/
def parse_downloaded_model_file_list_response :
    List LinkNode → Except PyError (List CatalogRow)
  | [] => .ok []
  | link :: rest =>
    match lookupAttr link.attrs ("href").toList with
    | none => .error (.keyError ("href").toList)
    | some href =>
      if isSubstring dlPrefix href then
        let model_name := trimStr (replaceAll ("☆").toList [] link.text)
        let model_url := href
        let model_file_name := pathBasename href
        let model_folder_name :=
          splitextStem (pathBasename (splitextStem (pathBasename model_file_name)))
        let model_release_date := findDate8 model_file_name
        match parse_downloaded_model_file_list_response rest with
        | .error e => .error e
        | .ok rows =>
          .ok (⟨model_release_date, model_folder_name, model_file_name,
            model_url, model_name⟩ :: rows)
      else
        parse_downloaded_model_file_list_response rest

/-- Outcome of the catalog page fetch: the anchor nodes that `mistune` +
`BeautifulSoup` extract from the response text, or a
`requests.exceptions.RequestException`. -/
inductive FetchResult where
  | ok (links : List LinkNode)
  | exn

set_option linter.unusedVariables false in
/-- `download_reference_model_list_as_csv(url, base_model_csv)`: on a
successful fetch, parse the links and overwrite the CSV; a
`RequestException` is caught and logged (the function returns normally with
nothing written); any other exception — such as the parser's `KeyError` — is
not caught by the `except requests.exceptions.RequestException` clause and
propagates. -/
def download_reference_model_list_as_csv (fetch : FetchResult)
    (url base_model_csv : Str) (fs : FS) : PyResult Unit :=
  match fetch with
  | .exn => .ok () fs
  | .ok links =>
    match parse_downloaded_model_file_list_response links with
    | .error e => .err e fs
    | .ok rows => .ok () (fs.writeCsv base_model_csv rows)

/-! ### Project resolution (`export_labeled_dataset_and_create_tf_record.py`,
lines 37-44) -/

/-- A project of the labeling service's project-list query. -/
structure Project where
  id : Str
  name : Str
deriving DecidableEq

/-- `__get_specific_project_id(client, project_name)` over the parsed project
list (the GraphQL client being external): the loop returns the id of the
first project whose name matches exactly, and raises
`ValueError("Project name not found")` when none does. -/
def get_specific_project_id (projects : List Project) (project_name : Str) :
    Except PyError Str :=
  match projects.find? (fun p => p.name == project_name) with
  | some p => .ok p.id
  | none => .error (.valueError ("Project name not found").toList)

/-! ### `file_ops.get_filename` and the training-job dispatcher
(`utils/file_ops.py` lines 29-40, `train_models/train_models_dag.py` line 56) -/

/-- `os.path.basename` (posix). -/
def os_path_basename (p : Str) : Str :=
  pathBasename p

/-- `os.path.splitext` as called: it takes a single positional argument, so a
call with two arguments raises `TypeError` before anything is computed. -/
def os_path_splitext (args : List Str) : Except PyError (Str × Str) :=
  match args with
  | [p] => .ok (splitextPair p)
  | _ =>
    .error (.typeError ("splitext() takes 1 positional argument but 2 were given").toList)

/-- `file_ops.get_filename(file_path, with_extension)`: with the extension, the
basename; without it, the result of
`os.path.splitext(os.path.basename(file_path), ".tar.gz")[0]` — a two-argument
`splitext` call. -/
def get_filename (file_path : Str) (with_extension : Bool) : Except PyError Str :=
  if with_extension then .ok (os_path_basename file_path)
  else
    match os_path_splitext [os_path_basename file_path, (".tar.gz").toList] with
    | .error e => .error e
    | .ok pr => .ok pr.1

/-- The training-job dispatcher's derivation of a job name from a descriptor
file: `training_name = file_ops.get_filename(json_file, with_extension=False)`
(`train_models_dag.py`, line 56). -/
def train_models_dag_training_name (json_file : Str) : Except PyError Str :=
  get_filename json_file false

/-- Well-formedness of a filesystem: file keys (directory, name) are unique. -/
def FS.Wf (fs : FS) : Prop :=
  (fs.entries.map (fun e => (e.dir, e.fname))).Nodup

instance (fs : FS) : Decidable fs.Wf := by
  unfold FS.Wf
  infer_instance

/-! ### Concrete fixtures and result discriminators -/

/-- Does a stateful result carry an `AttributeError`? -/
def pyResultIsAttributeError {α : Type} : PyResult α → Bool
  | .err (.attributeError _) _ => true
  | _ => false

/-- Does a pure result carry the labeling service's `NotFoundError`? -/
def exceptIsNotFoundError {α : Type} : Except PyError α → Bool
  | .error (.notFoundError _) => true
  | _ => false

/-- An empty filesystem. -/
def fsEmpty : FS :=
  ⟨[], [], [], 0⟩

/-- Two source-filtered TFRecord subfolders whose label maps have the same
size and the same modification time but different bytes. -/
def fsShallowCmp : FS :=
  ⟨[⟨("tf/camA_1").toList, ("labelmap.pbtxt").toList, ("aa").toList, 5⟩,
    ⟨("tf/camA_2").toList, ("labelmap.pbtxt").toList, ("ab").toList, 5⟩],
   [("tf").toList, ("tf/camA_1").toList, ("tf/camA_2").toList], [], 0⟩

/-- A filesystem whose base-model CSV parses to an empty catalog. -/
def fsCsvEmptyCatalog : FS :=
  ⟨[], [], [(("models.csv").toList, [])], 0⟩

/-- A one-row catalog whose base-model folder is already present on disk. -/
def fsModelPresent : FS :=
  ⟨[], [("models").toList, ("models/ssd_mobilenet_v2").toList],
   [(("models.csv").toList,
     [⟨some (("2020_01_01").toList), ("ssd_mobilenet_v2").toList,
       ("ssd_mobilenet_v2.tar.gz").toList,
       ("http://download.tensorflow.org/models/object_detection/ssd_mobilenet_v2.tar.gz").toList,
       ("SSD MobileNet v2").toList⟩])], 0⟩

/-- Two TFRecord source subfolders with identical label maps and one train
record each, next to an empty training tree. -/
def fsTfRecords : FS :=
  ⟨[⟨("tf/camA_1").toList, ("labelmap.pbtxt").toList, ("item0").toList, 1⟩,
    ⟨("tf/camA_1").toList, ("a_train.record").toList, ("recA").toList, 2⟩,
    ⟨("tf/camA_2").toList, ("labelmap.pbtxt").toList, ("item0").toList, 3⟩,
    ⟨("tf/camA_2").toList, ("b_train.record").toList, ("recB").toList, 4⟩,
    ⟨("tf/camA_2").toList, ("b_val.record").toList, ("recV").toList, 5⟩],
   [("tf").toList, ("tf/camA_1").toList, ("tf/camA_2").toList, ("training").toList],
   [], 10⟩

/-- A two-project listing of the labeling service. -/
def demoProjects : List Project :=
  [⟨("id-1").toList, ("proj1").toList⟩, ⟨("id-2").toList, ("proj2").toList⟩]

/-- The catalog rows `download_and_extract_base_model` iterates over: all of
them, or the `isin`-filtered subset when a required list is given. -/
def selectedCatalogRows (required_base_models : Option (List Str))
    (catalog : List CatalogRow) : List CatalogRow :=
  match required_base_models with
  | none => catalog
  | some req => catalog.filter (fun r => req.contains r.model_name)

/-- C1 (counterexample): a template that contains all seven placeholder
tokens but in which the only `TRAINING_EPOCH_COUNT` occurrence overlaps a
`TRAIN_TF_RECORD_PATH` occurrence (sharing the boundary `T`).  Substituting
`TRAIN_TF_RECORD_PATH` first destroys that occurrence, so the epoch value
never reaches the produced text — the claim's "contains the substituted
values verbatim" fails for this template. -/
def cexOverlapTemplate : Str :=
  ("NUM_CLASSES PRE_TRAINED_MODEL_CHECKPOINT_PATH LABEL_MAP_PATH TRAIN_TF_RECORD_PATH VAL_TF_RECORD_PATH TRAINING_BATCH_SIZE TRAINING_EPOCH_COUNTRAIN_TF_RECORD_PATH").toList

/-! ### Bridge lemmas over list prefixes, suffixes and infixes -/

theorem infixOfPre {l₁ l₂ : Str} (h : l₁ <+: l₂) : l₁ <:+: l₂ :=
  List.IsPrefix.isInfix h

theorem infixOfSuf {l₁ l₂ : Str} (h : l₁ <:+ l₂) : l₁ <:+: l₂ :=
  List.IsSuffix.isInfix h

theorem prefComparable {l₁ l₂ l₃ : Str} (h₁ : l₁ <+: l₃) (h₂ : l₂ <+: l₃) :
    l₁ <+: l₂ ∨ l₂ <+: l₁ :=
  List.prefix_or_prefix_of_prefix h₁ h₂

theorem nilPref (l : Str) : [] <+: l :=
  List.nil_prefix

theorem prefOfTake (l : Str) (n : Nat) : l.take n <+: l :=
  List.take_prefix n l

theorem sufOfDrop (l : Str) (n : Nat) : l.drop n <:+ l :=
  List.drop_suffix n l

theorem sufConsOf {l₁ l₂ : Str} (c : Char) (h : l₁ <:+ l₂) : l₁ <:+ c :: l₂ :=
  h.trans (List.suffix_cons c l₂)

theorem isPrefTrue {p s : Str} : p.isPrefixOf s = true ↔ p <+: s :=
  List.isPrefixOf_iff_prefix

theorem prefAppendLeft (a b : Str) : a <+: a ++ b :=
  List.prefix_append a b

theorem sufAppendRight (a b : Str) : b <:+ a ++ b :=
  List.suffix_append a b

theorem infixConsMono {l₁ l₂ : Str} (c : Char) (h : l₁ <:+: l₂) : l₁ <:+: c :: l₂ :=
  h.trans (infixOfSuf (List.suffix_cons c l₂))

/-- A prefix of an append splits: either it lies inside the left part, or it
covers the left part entirely and its remainder is a prefix of the right part. -/
theorem prefAppendSplit {w a b : Str} (h : w <+: a ++ b) :
    w <+: a ∨ ∃ w2, w = a ++ w2 ∧ w2 <+: b := by
  induction a generalizing w with
  | nil =>
    exact Or.inr ⟨w, by simp, by simpa using h⟩
  | cons c a' ih =>
    match w with
    | [] => exact Or.inl (nilPref _)
    | d :: w' =>
      rw [List.cons_append, List.cons_prefix_cons] at h
      obtain ⟨rfl, h'⟩ := h
      rcases ih h' with h'' | ⟨w2, rfl, hw2⟩
      · exact Or.inl (List.cons_prefix_cons.mpr ⟨rfl, h''⟩)
      · exact Or.inr ⟨w2, by simp, hw2⟩

/-- An infix of an append lies in the left part, in the right part, or straddles
the join with a nonempty suffix of the left part and a nonempty prefix of the
right part. -/
theorem infixAppendSplit {w a b : Str} (h : w <:+: a ++ b) :
    w <:+: a ∨ w <:+: b ∨
      ∃ w1 w2, w1 ++ w2 = w ∧ w1 ≠ [] ∧ w2 ≠ [] ∧ w1 <:+ a ∧ w2 <+: b := by
  induction a with
  | nil => right; left; simpa using h
  | cons c a' ih =>
    rw [List.cons_append] at h
    rcases List.infix_cons_iff.mp h with hpre | hinf
    · rcases prefAppendSplit (show w <+: (c :: a') ++ b by simpa using hpre) with
        h1 | ⟨w2, rfl, hw2⟩
      · exact Or.inl (infixOfPre h1)
      · by_cases hw2nil : w2 = []
        · subst hw2nil
          exact Or.inl (by simp)
        · exact Or.inr (Or.inr ⟨c :: a', w2, rfl, by simp, hw2nil, List.suffix_rfl, hw2⟩)
    · rcases ih hinf with h1 | h2 | ⟨w1, w2, e, hn1, hn2, hs, hp⟩
      · exact Or.inl (h1.trans (infixOfSuf (List.suffix_cons c a')))
      · exact Or.inr (Or.inl h2)
      · exact Or.inr (Or.inr ⟨w1, w2, e, hn1, hn2, sufConsOf c hs, hp⟩)

theorem replaceAllF_fuel (p r : Str) :
    ∀ f₁ f₂ s, s.length ≤ f₁ → s.length ≤ f₂ →
      replaceAllF p r f₁ s = replaceAllF p r f₂ s := by
  intro f₁
  induction f₁ with
  | zero =>
    intro f₂ s hs _
    have : s = [] := List.eq_nil_of_length_eq_zero (Nat.le_zero.mp hs)
    subst this
    cases f₂ <;> rfl
  | succ f₁ ih =>
    intro f₂ s hs₁ hs₂
    match s with
    | [] => cases f₂ <;> rfl
    | c :: rest =>
      match f₂ with
      | 0 => exact absurd hs₂ (by simp)
      | f₂ + 1 =>
        rw [replaceAllF, replaceAllF]
        by_cases hc : p.isPrefixOf (c :: rest) ∧ p ≠ []
        · rw [if_pos hc, if_pos hc]
          have hlen : (rest.drop (p.length - 1)).length ≤ rest.length := by
            simp only [List.length_drop]
            omega
          have h₁ : (rest.drop (p.length - 1)).length ≤ f₁ := by
            have : rest.length ≤ f₁ := by simpa using Nat.le_of_succ_le_succ hs₁
            omega
          have h₂ : (rest.drop (p.length - 1)).length ≤ f₂ := by
            have : rest.length ≤ f₂ := by simpa using Nat.le_of_succ_le_succ hs₂
            omega
          rw [ih f₂ _ h₁ h₂]
        · rw [if_neg hc, if_neg hc]
          have h₁ : rest.length ≤ f₁ := by simpa using Nat.le_of_succ_le_succ hs₁
          have h₂ : rest.length ≤ f₂ := by simpa using Nat.le_of_succ_le_succ hs₂
          rw [ih f₂ rest h₁ h₂]

theorem replaceAll_nil (p r : Str) : replaceAll p r [] = [] := rfl

theorem replaceAll_cons_pos {p : Str} (r : Str) {c : Char} {rest : Str}
    (h1 : p <+: c :: rest) (h2 : p ≠ []) :
    replaceAll p r (c :: rest) = r ++ replaceAll p r (rest.drop (p.length - 1)) := by
  show replaceAllF p r (rest.length + 1) (c :: rest) = _
  rw [replaceAllF, if_pos ⟨isPrefTrue.mpr h1, h2⟩, replaceAll,
    replaceAllF_fuel p r rest.length (rest.drop (p.length - 1)).length _
      (by simp only [List.length_drop]; omega) le_rfl]

theorem replaceAll_cons_neg {p : Str} (r : Str) {c : Char} {rest : Str}
    (h : ¬ (p <+: c :: rest ∧ p ≠ [])) :
    replaceAll p r (c :: rest) = c :: replaceAll p r rest := by
  show replaceAllF p r (rest.length + 1) (c :: rest) = _
  rw [replaceAllF, if_neg (fun hc => h ⟨isPrefTrue.mp hc.1, hc.2⟩), replaceAll]

theorem NoOverlap.left_ne_nil {a b : Str} (h : NoOverlap a b) : a ≠ [] := by
  intro hnil
  exact h.1 (hnil ▸ ⟨[], b, by simp⟩)

theorem NoOverlap.right_ne_nil {a b : Str} (h : NoOverlap a b) : b ≠ [] := by
  intro hnil
  exact h.2.1 (hnil ▸ ⟨[], a, by simp⟩)

/-- No nonempty suffix of `a` is a prefix of `b`. -/
theorem NoOverlap.sufPre {a b w : Str} (h : NoOverlap a b) (hw : w ≠ [])
    (h1 : w <:+ a) (h2 : w <+: b) : False := by
  have hl := h1.length_le
  have hwlen : 0 < w.length := List.length_pos.mpr hw
  have e : w = a.drop (a.length - w.length) := List.suffix_iff_eq_drop.mp h1
  exact h.2.2.1 (a.length - w.length) (by omega) (e ▸ h2)

/-- No nonempty prefix of `a` is a suffix of `b`. -/
theorem NoOverlap.preSuf {a b w : Str} (h : NoOverlap a b) (hw : w ≠ [])
    (h1 : w <+: a) (h2 : w <:+ b) : False := by
  have hwlen : 0 < w.length := List.length_pos.mpr hw
  by_cases hlen : w.length < a.length
  · have e : w = a.take w.length := List.prefix_iff_eq_take.mp h1
    exact h.2.2.2 w.length hlen hwlen (e ▸ h2)
  · have : w = a := h1.eq_of_length (Nat.le_antisymm h1.length_le (Nat.not_lt.mp hlen))
    subst this
    exact h.1 (infixOfSuf h2)

/-- No nonempty suffix of `b` is a prefix of `a`. -/
theorem NoOverlap.sufPre' {a b w : Str} (h : NoOverlap a b) (hw : w ≠ [])
    (h1 : w <:+ b) (h2 : w <+: a) : False := by
  have hwlen : 0 < w.length := List.length_pos.mpr hw
  by_cases hlen : w.length < a.length
  · have e : w = a.take w.length := List.prefix_iff_eq_take.mp h2
    exact h.2.2.2 w.length hlen hwlen (e ▸ h1)
  · have : w = a := h2.eq_of_length (Nat.le_antisymm h2.length_le (Nat.not_lt.mp hlen))
    subst this
    exact h.1 (infixOfSuf h1)

/-- No nonempty prefix of `b` is a suffix of `a`. -/
theorem NoOverlap.preSuf' {a b w : Str} (h : NoOverlap a b) (hw : w ≠ [])
    (h1 : w <+: b) (h2 : w <:+ a) : False := by
  have hwlen : 0 < w.length := List.length_pos.mpr hw
  have hl := h2.length_le
  by_cases hlen : w.length < a.length
  · have e : w = a.drop (a.length - w.length) := List.suffix_iff_eq_drop.mp h2
    exact h.2.2.1 (a.length - w.length) (by omega) (e ▸ h1)
  · have : w = a := h2.eq_of_length (Nat.le_antisymm h2.length_le (Nat.not_lt.mp hlen))
    subst this
    exact h.1 (infixOfPre h1)

/-! ### How `replaceAll` acts on occurrences -/

/-- Back-transport of a tracked suffix of `q`: if a suffix of `q` is a prefix
of the output of `replaceAll p r`, it was already a prefix of the input
(provided `q` cannot overlap the replacement `r`). -/
theorem replaceAll_track {p r q : Str} (hno : NoOverlap q r) :
    ∀ s k, k < q.length → q.drop k <+: replaceAll p r s → q.drop k <+: s := by
  intro s
  induction s with
  | nil =>
    intro k hk hpre
    rw [replaceAll_nil] at hpre
    have : q.drop k = [] := List.prefix_nil.mp hpre
    have : q.length - k = 0 := by simpa [List.length_drop] using congrArg List.length this
    omega
  | cons c rest ih =>
    intro k hk hpre
    have hqk : q.drop k ≠ [] := by
      intro hnil
      have : q.length - k = 0 := by simpa [List.length_drop] using congrArg List.length hnil
      omega
    by_cases hmatch : p <+: c :: rest ∧ p ≠ []
    · rw [replaceAll_cons_pos r hmatch.1 hmatch.2] at hpre
      rcases prefComparable hpre (prefAppendLeft r _) with h1 | h1
      · exact (hno.sufPre hqk (sufOfDrop q k) h1).elim
      · exact absurd ((infixOfPre h1).trans (infixOfSuf (sufOfDrop q k))) hno.2.1
    · rw [replaceAll_cons_neg r hmatch] at hpre
      cases hqe : q.drop k with
      | nil => exact absurd hqe hqk
      | cons d w' =>
        rw [hqe, List.cons_prefix_cons] at hpre
        obtain ⟨rfl, hw'⟩ := hpre
        have hw'eq : q.drop (k + 1) = w' := by
          have : (q.drop k).drop 1 = w' := by rw [hqe]; simp
          simpa [List.drop_drop, Nat.add_comm] using this
        by_cases hk1 : k + 1 < q.length
        · have := ih (k + 1) hk1 (hw'eq ▸ hw')
          exact List.cons_prefix_cons.mpr ⟨rfl, hw'eq ▸ this⟩
        · have hlen : q.length = k + 1 := by omega
          have hnil : q.drop (k + 1) = [] := by
            apply List.eq_nil_of_length_eq_zero
            simp [List.length_drop, hlen]
          have : w' = [] := by rw [← hw'eq, hnil]
          subst this
          exact List.cons_prefix_cons.mpr ⟨rfl, nilPref rest⟩

/-- After replacing `p` by `r`, the pattern `p` no longer occurs (given that
`p` cannot overlap `r`). -/
theorem replaceAll_no_pattern {p r : Str} (hno : NoOverlap p r) :
    ∀ s, ¬ p <:+: replaceAll p r s := by
  have hp : p ≠ [] := hno.left_ne_nil
  have main : ∀ n s, s.length ≤ n → ¬ p <:+: replaceAll p r s := by
    intro n
    induction n with
    | zero =>
      intro s hs
      have : s = [] := List.eq_nil_of_length_eq_zero (Nat.le_zero.mp hs)
      subst this
      rw [replaceAll_nil]
      intro h
      exact hp (List.eq_nil_of_infix_nil h)
    | succ n ihn =>
      intro s hs
      match s with
      | [] =>
        rw [replaceAll_nil]
        intro h
        exact hp (List.eq_nil_of_infix_nil h)
      | c :: rest =>
        by_cases hmatch : p <+: c :: rest ∧ p ≠ []
        · rw [replaceAll_cons_pos r hmatch.1 hmatch.2]
          intro hinf
          rcases infixAppendSplit hinf with h1 | h1 | ⟨w1, w2, he, hn1, hn2, hs1, hp2⟩
          · exact hno.1 h1
          · have hlen : (rest.drop (p.length - 1)).length ≤ n := by
              have := List.length_drop (p.length - 1) rest
              have hs' : rest.length ≤ n := by simpa using Nat.le_of_succ_le_succ hs
              omega
            exact ihn _ hlen h1
          · exact hno.preSuf hn1 (he ▸ prefAppendLeft w1 w2) hs1
        · rw [replaceAll_cons_neg r hmatch]
          intro hinf
          rcases List.infix_cons_iff.mp hinf with hpre | hinf'
          · cases p with
            | nil => exact hp rfl
            | cons d p' =>
              rw [List.cons_prefix_cons] at hpre
              obtain ⟨rfl, hp'⟩ := hpre
              by_cases hp'nil : p' = []
              · subst hp'nil
                exact hmatch ⟨List.cons_prefix_cons.mpr ⟨rfl, nilPref rest⟩, hp⟩
              · have h1lt : 1 < (d :: p').length := by
                  cases p' with
                  | nil => exact absurd rfl hp'nil
                  | cons _ _ => simp
                have htr := replaceAll_track (p := d :: p') (q := d :: p') hno rest 1 h1lt
                have : p' <+: rest := by simpa using htr (by simpa using hp')
                exact hmatch ⟨List.cons_prefix_cons.mpr ⟨rfl, this⟩, hp⟩
          · exact ihn rest (Nat.le_of_succ_le_succ hs) hinf'
  intro s
  exact main s.length s le_rfl

/-- Replacing `p` by `r` cannot create an occurrence of a word `q` that was
absent, provided `q` cannot overlap the replacement `r`. -/
theorem replaceAll_preserves_absent {p r q : Str} (hno : NoOverlap q r) :
    ∀ s, ¬ q <:+: s → ¬ q <:+: replaceAll p r s := by
  have main : ∀ n s, s.length ≤ n → ¬ q <:+: s → ¬ q <:+: replaceAll p r s := by
    intro n
    induction n with
    | zero =>
      intro s hs habs
      have : s = [] := List.eq_nil_of_length_eq_zero (Nat.le_zero.mp hs)
      subst this
      rw [replaceAll_nil]
      exact habs
    | succ n ihn =>
      intro s hs habs
      match s with
      | [] =>
        rw [replaceAll_nil]
        exact habs
      | c :: rest =>
        by_cases hmatch : p <+: c :: rest ∧ p ≠ []
        · rw [replaceAll_cons_pos r hmatch.1 hmatch.2]
          intro hinf
          rcases infixAppendSplit hinf with h1 | h1 | ⟨w1, w2, he, hn1, hn2, hs1, hp2⟩
          · exact hno.1 h1
          · have hlen : (rest.drop (p.length - 1)).length ≤ n := by
              have := List.length_drop (p.length - 1) rest
              have hs' : rest.length ≤ n := by simpa using Nat.le_of_succ_le_succ hs
              omega
            have habs' : ¬ q <:+: rest.drop (p.length - 1) := by
              intro hx
              exact habs ((hx.trans (infixOfSuf (sufOfDrop rest (p.length - 1)))).trans
                (infixOfSuf (List.suffix_cons c rest)))
            exact ihn _ hlen habs' h1
          · exact hno.preSuf hn1 (he ▸ prefAppendLeft w1 w2) hs1
        · rw [replaceAll_cons_neg r hmatch]
          intro hinf
          rcases List.infix_cons_iff.mp hinf with hpre | hinf'
          · cases hqnil : q with
            | nil => exact habs (hqnil ▸ ⟨[], c :: rest, by simp⟩)
            | cons d q' =>
              subst hqnil
              rw [List.cons_prefix_cons] at hpre
              obtain ⟨rfl, hq'⟩ := hpre
              by_cases hq'nil : q' = []
              · subst hq'nil
                exact habs (infixOfPre (List.cons_prefix_cons.mpr ⟨rfl, nilPref rest⟩))
              · have h1lt : 1 < (d :: q').length := by
                  cases q' with
                  | nil => exact absurd rfl hq'nil
                  | cons _ _ => simp
                have htr := replaceAll_track (p := p) (q := d :: q') hno rest 1 h1lt
                have : q' <+: rest := by simpa using htr (by simpa using hq')
                exact habs (infixOfPre (List.cons_prefix_cons.mpr ⟨rfl, this⟩))
          · have habs' : ¬ q <:+: rest := fun hx =>
              habs (hx.trans (infixOfSuf (List.suffix_cons c rest)))
            exact ihn rest (Nat.le_of_succ_le_succ hs) habs' hinf'
  intro s
  exact main s.length s le_rfl

/-- A prefix of the input whose suffix pieces cannot begin the pattern `p` is
still a prefix of the output of `replaceAll p r`. -/
theorem replaceAll_preserves_pre {p r : Str} :
    ∀ w s, (¬ p <:+: w) → (∀ u, u ≠ [] → u <:+ w → ¬ u <+: p) →
      w <+: s → w <+: replaceAll p r s := by
  intro w
  induction w with
  | nil => intro s _ _ _; exact nilPref _
  | cons d w'' ih =>
    intro s hnp hsp hws
    match s with
    | [] => exact absurd (List.prefix_nil.mp hws) (by simp)
    | c :: rest =>
      rw [List.cons_prefix_cons] at hws
      obtain ⟨rfl, hw''⟩ := hws
      have hnomatch : ¬ (p <+: d :: rest ∧ p ≠ []) := by
        rintro ⟨hpp, hpnil⟩
        rcases prefComparable hpp (List.cons_prefix_cons.mpr ⟨rfl, hw''⟩) with h1 | h1
        · exact hnp (infixOfPre h1)
        · exact hsp (d :: w'') (by simp) List.suffix_rfl h1
      rw [replaceAll_cons_neg r hnomatch]
      refine List.cons_prefix_cons.mpr ⟨rfl, ?_⟩
      refine ih rest ?_ ?_ hw''
      · intro hx
        exact hnp (hx.trans (infixOfSuf (List.suffix_cons d w'')))
      · intro u hu hu1 hu2
        exact hsp u hu (sufConsOf d hu1) hu2

/-- An occurrence of a word `w` survives `replaceAll p r` when `w` cannot
overlap the pattern `p`. -/
theorem replaceAll_preserves_infix {p r w : Str} (hw : w ≠ []) (hno : NoOverlap p w) :
    ∀ s, w <:+: s → w <:+: replaceAll p r s := by
  have hp : p ≠ [] := hno.left_ne_nil
  have main : ∀ n s, s.length ≤ n → w <:+: s → w <:+: replaceAll p r s := by
    intro n
    induction n with
    | zero =>
      intro s hs hin
      have : s = [] := List.eq_nil_of_length_eq_zero (Nat.le_zero.mp hs)
      subst this
      exact absurd (List.eq_nil_of_infix_nil hin) hw
    | succ n ihn =>
      intro s hs hin
      match s with
      | [] => exact absurd (List.eq_nil_of_infix_nil hin) hw
      | c :: rest =>
        by_cases hmatch : p <+: c :: rest ∧ p ≠ []
        · rw [replaceAll_cons_pos r hmatch.1 hmatch.2]
          have hsplit : c :: rest = p ++ (c :: rest).drop p.length := by
            have hdecomp := List.prefix_iff_eq_take.mp hmatch.1
            conv_lhs => rw [← List.take_append_drop p.length (c :: rest), ← hdecomp]
          rw [hsplit] at hin
          rcases infixAppendSplit hin with h1 | h1 | ⟨w1, w2, he, hn1, hn2, hs1, hp2⟩
          · exact absurd h1 hno.2.1
          · have hdrop : (c :: rest).drop p.length = rest.drop (p.length - 1) := by
              have hplen : 0 < p.length := List.length_pos.mpr hp
              cases hpl : p.length with
              | zero => omega
              | succ m => simp [hpl]
            rw [hdrop] at h1
            have hlen : (rest.drop (p.length - 1)).length ≤ n := by
              have := List.length_drop (p.length - 1) rest
              have hs' : rest.length ≤ n := by simpa using Nat.le_of_succ_le_succ hs
              omega
            exact (ihn _ hlen h1).trans (infixOfSuf (sufAppendRight r _))
          · exact (hno.sufPre hn1 hs1 (he ▸ prefAppendLeft w1 w2)).elim
        · rw [replaceAll_cons_neg r hmatch]
          rcases List.infix_cons_iff.mp hin with hpre | hinf'
          · cases hwe : w with
            | nil => exact absurd hwe hw
            | cons d w' =>
              subst hwe
              rw [List.cons_prefix_cons] at hpre
              obtain ⟨rfl, hw'⟩ := hpre
              refine infixOfPre (List.cons_prefix_cons.mpr ⟨rfl, ?_⟩)
              refine replaceAll_preserves_pre w' rest ?_ ?_ hw'
              · intro hx
                exact hno.1 (hx.trans (infixOfSuf (List.suffix_cons d w')))
              · intro u hu hu1 hu2
                exact hno.preSuf hu hu2 (sufConsOf d hu1)
          · exact infixConsMono c (ihn rest (Nat.le_of_succ_le_succ hs) hinf')
  intro s
  exact main s.length s le_rfl

/-- If the pattern occurs in the input then the replacement text occurs in the
output. -/
theorem replaceAll_inserts {p r : Str} (hp : p ≠ []) :
    ∀ s, p <:+: s → r <:+: replaceAll p r s := by
  intro s
  induction s with
  | nil =>
    intro hin
    exact absurd (List.eq_nil_of_infix_nil hin) hp
  | cons c rest ih =>
    intro hin
    by_cases hmatch : p <+: c :: rest ∧ p ≠ []
    · rw [replaceAll_cons_pos r hmatch.1 hmatch.2]
      exact infixOfPre (prefAppendLeft r _)
    · rw [replaceAll_cons_neg r hmatch]
      rcases List.infix_cons_iff.mp hin with hpre | hinf'
      · exact absurd ⟨hpre, hp⟩ hmatch
      · exact infixConsMono c (ih hinf')

theorem substChain_append (xs ys : List (Str × Str)) (s : Str) :
    substChain (xs ++ ys) s = substChain ys (substChain xs s) := by
  induction xs generalizing s with
  | nil => rfl
  | cons pr xs ih => simp [substChain, ih]

theorem substChain_preserves_absent {q : Str} :
    ∀ prs s, (∀ pr ∈ prs, NoOverlap q pr.2) → ¬ q <:+: s → ¬ q <:+: substChain prs s := by
  intro prs
  induction prs with
  | nil => intro s _ habs; exact habs
  | cons pr rest ih =>
    intro s hsafe habs
    exact ih _ (fun x hx => hsafe x (List.mem_cons_of_mem pr hx))
      (replaceAll_preserves_absent (hsafe pr (List.mem_cons_self pr rest)) s habs)

theorem substChain_preserves_infix {w : Str} (hw : w ≠ []) :
    ∀ prs s, (∀ pr ∈ prs, NoOverlap pr.1 w) → w <:+: s → w <:+: substChain prs s := by
  intro prs
  induction prs with
  | nil => intro s _ hin; exact hin
  | cons pr rest ih =>
    intro s hsafe hin
    exact ih _ (fun x hx => hsafe x (List.mem_cons_of_mem pr hx))
      ( replaceAll_preserves_infix hw (hsafe pr (List.mem_cons_self pr rest)) s hin)

/-- After a substitution chain, the pattern of position `i` is absent from the
result, provided it cannot overlap its own replacement nor any later
replacement. -/
theorem substChain_pattern_absent {prs : List (Str × Str)} {s : Str} (i : Nat)
    (hi : i < prs.length)
    (hself : NoOverlap (prs.get ⟨i, hi⟩).1 (prs.get ⟨i, hi⟩).2)
    (hlater : ∀ pr ∈ prs.drop (i + 1), NoOverlap (prs.get ⟨i, hi⟩).1 pr.2) :
    ¬ (prs.get ⟨i, hi⟩).1 <:+: substChain prs s := by
  have hdecomp : prs = prs.take i ++ prs.get ⟨i, hi⟩ :: prs.drop (i + 1) := by
    conv_lhs => rw [← List.take_append_drop i prs]
    congr 1
    exact List.drop_eq_get_cons hi
  have hchain : substChain prs s
      = substChain (prs.drop (i + 1))
          (replaceAll (prs.get ⟨i, hi⟩).1 (prs.get ⟨i, hi⟩).2 (substChain (prs.take i) s)) := by
    conv_lhs => rw [hdecomp]
    rw [substChain_append]
    simp [substChain]
  rw [hchain]
  exact substChain_preserves_absent _ _ hlater (replaceAll_no_pattern hself _)

/-- After a substitution chain, the replacement of position `i` occurs in the
result, provided its pattern still occurs when its step runs and it cannot
overlap any later pattern. -/
theorem substChain_value_present {prs : List (Str × Str)} {s : Str} (i : Nat)
    (hi : i < prs.length)
    (hp : (prs.get ⟨i, hi⟩).1 ≠ [])
    (hv : (prs.get ⟨i, hi⟩).2 ≠ [])
    (htok : (prs.get ⟨i, hi⟩).1 <:+: substChain (prs.take i) s)
    (hlater : ∀ pr ∈ prs.drop (i + 1), NoOverlap pr.1 (prs.get ⟨i, hi⟩).2) :
    (prs.get ⟨i, hi⟩).2 <:+: substChain prs s := by
  have hdecomp : prs = prs.take i ++ prs.get ⟨i, hi⟩ :: prs.drop (i + 1) := by
    conv_lhs => rw [← List.take_append_drop i prs]
    congr 1
    exact List.drop_eq_get_cons hi
  have hchain : substChain prs s
      = substChain (prs.drop (i + 1))
          (replaceAll (prs.get ⟨i, hi⟩).1 (prs.get ⟨i, hi⟩).2 (substChain (prs.take i) s)) := by
    conv_lhs => rw [hdecomp]
    rw [substChain_append]
    simp [substChain]
  rw [hchain]
  exact substChain_preserves_infix hv _ _ hlater (replaceAll_inserts hp _ htok)

theorem isSubstring_iff (needle hay : Str) :
    isSubstring needle hay = true ↔ needle <:+: hay := by
  induction hay with
  | nil =>
    simp only [isSubstring, List.isEmpty_iff]
    constructor
    · rintro rfl; exact ⟨[], [], rfl⟩
    · exact List.eq_nil_of_infix_nil
  | cons c rest ih =>
    simp only [isSubstring, Bool.or_eq_true, ih]
    rw [List.infix_cons_iff]
    constructor
    · rintro (h | h)
      · exact Or.inl (isPrefTrue.mp h)
      · exact Or.inr h
    · rintro (h | h)
      · exact Or.inl (isPrefTrue.mpr h)
      · exact Or.inr h

/-! ### Frame lemmas for the filesystem model -/

theorem find?_upsertList_same (es : List FileEntry) (d n c : Str) (m : Nat) :
    (upsertList es d n c m).find? (fun e => e.dir == d && e.fname == n) =
      some ⟨d, n, c, m⟩ := by
  induction es with
  | nil => simp [upsertList, List.find?]
  | cons e es ih =>
    rw [upsertList]
    by_cases hkey : (e.dir == d && e.fname == n) = true
    · simp [hkey, List.find?]
    · simp only [hkey, if_false, Bool.false_eq_true]
      rw [List.find?]
      simp only [hkey]
      exact ih

theorem find?_upsertList_other (es : List FileEntry) {d n : Str} (c : Str) (m : Nat)
    {d' n' : Str} (h : ¬ (d' = d ∧ n' = n)) :
    (upsertList es d n c m).find? (fun e => e.dir == d' && e.fname == n') =
      es.find? (fun e => e.dir == d' && e.fname == n') := by
  induction es with
  | nil =>
    simp only [upsertList, List.find?]
    have : ¬ (d == d' && n == n') = true := by
      intro hb
      simp only [Bool.and_eq_true, beq_iff_eq] at hb
      exact h ⟨hb.1.symm, hb.2.symm⟩
    simp [this]
  | cons e es ih =>
    rw [upsertList]
    by_cases hkey : (e.dir == d && e.fname == n) = true
    · simp only [hkey, if_true]
      have hd : e.dir = d ∧ e.fname = n := by
        simpa only [Bool.and_eq_true, beq_iff_eq] using hkey
      have hnew : ¬ (d == d' && n == n') = true := by
        intro hb
        simp only [Bool.and_eq_true, beq_iff_eq] at hb
        exact h ⟨hb.1.symm, hb.2.symm⟩
      have hold : ¬ (e.dir == d' && e.fname == n') = true := by
        intro hb
        simp only [Bool.and_eq_true, beq_iff_eq] at hb
        exact h ⟨hd.1 ▸ hb.1.symm ▸ rfl, hd.2 ▸ hb.2.symm ▸ rfl⟩
      rw [List.find?, List.find?]
      simp only [hnew, hold]
    · simp only [hkey, if_false, Bool.false_eq_true]
      rw [List.find?, List.find?]
      cases hpe : (e.dir == d' && e.fname == n') with
      | true => rfl
      | false => exact ih

theorem read_upsert_same (fs : FS) (d n c : Str) (m : Nat) :
    (fs.upsert d n c m).read d n = some c := by
  simp [FS.read, FS.upsert, find?_upsertList_same]

theorem read_upsert_other (fs : FS) {d n : Str} (c : Str) (m : Nat)
    {d' n' : Str} (h : ¬ (d' = d ∧ n' = n)) :
    (fs.upsert d n c m).read d' n' = fs.read d' n' := by
  simp [FS.read, FS.upsert, find?_upsertList_other _ _ _ h]

theorem lookup_upsert_other (fs : FS) {d n : Str} (c : Str) (m : Nat)
    {d' n' : Str} (h : ¬ (d' = d ∧ n' = n)) :
    (fs.upsert d n c m).lookup d' n' = fs.lookup d' n' := by
  simp [FS.lookup, FS.upsert, find?_upsertList_other _ _ _ h]

theorem read_write_same (fs : FS) (d n c : Str) :
    (fs.write d n c).read d n = some c := by
  simp [FS.write, FS.read]
  have := read_upsert_same fs d n c fs.clock
  simpa [FS.read] using this

theorem read_write_other (fs : FS) {d n : Str} (c : Str)
    {d' n' : Str} (h : ¬ (d' = d ∧ n' = n)) :
    (fs.write d n c).read d' n' = fs.read d' n' := by
  have := read_upsert_other fs c fs.clock h (d := d) (n := n)
  simpa [FS.write, FS.read] using this

theorem entries_mkdirEnsure (fs : FS) (d : Str) :
    (fs.mkdirEnsure d).entries = fs.entries := by
  rw [FS.mkdirEnsure]
  split <;> rfl

theorem csvs_mkdirEnsure (fs : FS) (d : Str) :
    (fs.mkdirEnsure d).csvs = fs.csvs := by
  rw [FS.mkdirEnsure]
  split <;> rfl

theorem read_mkdirEnsure (fs : FS) (d : Str) (d' n' : Str) :
    (fs.mkdirEnsure d).read d' n' = fs.read d' n' := by
  simp [FS.read, entries_mkdirEnsure]

theorem lookup_mkdirEnsure (fs : FS) (d : Str) (d' n' : Str) :
    (fs.mkdirEnsure d).lookup d' n' = fs.lookup d' n' := by
  simp [FS.lookup, entries_mkdirEnsure]

theorem glob_mkdirEnsure (fs : FS) (d : Str) (dir suf : Str) :
    (fs.mkdirEnsure d).glob dir suf = fs.glob dir suf := by
  simp [FS.glob, entries_mkdirEnsure]

theorem glob_mem {fs : FS} {dir suf : Str} {e : FileEntry}
    (h : e ∈ fs.glob dir suf) : e ∈ fs.entries ∧ e.dir = dir := by
  rw [FS.glob] at h
  have := List.mem_filter.mp h
  refine ⟨this.1, ?_⟩
  have hb := this.2
  simp only [Bool.and_eq_true, beq_iff_eq] at hb
  exact hb.1

theorem find?_of_mem_nodupKeys {e : FileEntry} :
    ∀ es : List FileEntry, (es.map (fun x => (x.dir, x.fname))).Nodup → e ∈ es →
      es.find? (fun x => x.dir == e.dir && x.fname == e.fname) = some e := by
  intro es
  induction es with
  | nil => intro _ h; exact absurd h (List.not_mem_nil e)
  | cons x xs ih =>
    intro hwf h
    rw [List.find?]
    rcases List.mem_cons.mp h with rfl | hmem
    · simp
    · have hx : ¬ (x.dir == e.dir && x.fname == e.fname) = true := by
        intro hb
        simp only [Bool.and_eq_true, beq_iff_eq] at hb
        have : (x.dir, x.fname) ∈ xs.map (fun y => (y.dir, y.fname)) := by
          rw [hb.1, hb.2]
          exact List.mem_map.mpr ⟨e, hmem, rfl⟩
        exact (List.nodup_cons.mp hwf).1 this
      simp only [hx]
      exact ih (List.nodup_cons.mp hwf).2 hmem

theorem lookup_of_mem_wf {fs : FS} (hwf : fs.Wf) {e : FileEntry}
    (h : e ∈ fs.entries) : fs.lookup e.dir e.fname = some e :=
  find?_of_mem_nodupKeys fs.entries hwf h

theorem read_eq_lookup (fs : FS) (d n : Str) :
    fs.read d n = (fs.lookup d n).map FileEntry.content := rfl

theorem wf_mkdirEnsure {fs : FS} (hwf : fs.Wf) (d : Str) :
    (fs.mkdirEnsure d).Wf := by
  rw [FS.Wf, entries_mkdirEnsure]
  exact hwf

/-- What a successful `shutil.copy2` loop guarantees when the destination is
distinct from every source directory, every source exists, and the copied
names are pairwise distinct: it succeeds, leaves everything outside the
destination directory unchanged, leaves unrelated names in the destination
unchanged, and materialises every source file's content under its name in the
destination. -/
theorem copyFilesLoop_spec :
    ∀ (pairs : List (Str × Str)) (dst : Str) (fs : FS),
      (∀ pr ∈ pairs, pr.1 ≠ dst) →
      (∀ pr ∈ pairs, (fs.lookup pr.1 pr.2).isSome) →
      (pairs.map Prod.snd).Nodup →
      ∃ fsO, copyFilesLoop pairs dst fs = .ok () fsO ∧
        (∀ d' n', d' ≠ dst → fsO.read d' n' = fs.read d' n') ∧
        (∀ d' n', d' ≠ dst → fsO.lookup d' n' = fs.lookup d' n') ∧
        (∀ n', n' ∉ pairs.map Prod.snd → fsO.read dst n' = fs.read dst n') ∧
        (∀ pr ∈ pairs, ∀ e, fs.lookup pr.1 pr.2 = some e →
          fsO.read dst pr.2 = some e.content) ∧
        fsO.dirs = fs.dirs ∧ fsO.csvs = fs.csvs := by
  intro pairs
  induction pairs with
  | nil =>
    intro dst fs _ _ _
    exact ⟨fs, rfl, fun _ _ _ => rfl, fun _ _ _ => rfl, fun _ _ => rfl,
      fun pr hpr => absurd hpr (List.not_mem_nil pr), rfl, rfl⟩
  | cons pr rest ih =>
    intro dst fs hsrc hex hnodup
    obtain ⟨d, n⟩ := pr
    have hd : d ≠ dst := hsrc (d, n) (List.mem_cons_self _ _)
    cases hl : fs.lookup d n with
    | none =>
      have := hex (d, n) (List.mem_cons_self _ _)
      rw [hl] at this
      exact absurd this (by simp)
    | some e =>
      have hsrc' : ∀ x ∈ rest, x.1 ≠ dst := fun x hx => hsrc x (List.mem_cons_of_mem _ hx)
      have hex' : ∀ x ∈ rest, ((fs.upsert dst n e.content e.mtime).lookup x.1 x.2).isSome := by
        intro x hx
        rw [lookup_upsert_other fs e.content e.mtime
          (fun hc => hsrc' x hx hc.1)]
        exact hex x (List.mem_cons_of_mem _ hx)
      have hnodup2 : (n :: rest.map Prod.snd).Nodup := by
        simpa only [List.map_cons] using hnodup
      have hnodup' := (List.nodup_cons.mp hnodup2).2
      obtain ⟨fsO, hrun, hfr, hfl, hnn, hpp, hdirs, hcsvs⟩ :=
        ih dst (fs.upsert dst n e.content e.mtime) hsrc' hex' hnodup'
      have hnfresh : n ∉ rest.map Prod.snd := (List.nodup_cons.mp hnodup2).1
      refine ⟨fsO, ?_, ?_, ?_, ?_, ?_, ?_, ?_⟩
      · rw [copyFilesLoop, hl]
        exact hrun
      · intro d' n' hne
        rw [hfr d' n' hne, read_upsert_other fs _ _ (fun hc => hne hc.1)]
      · intro d' n' hne
        rw [hfl d' n' hne, lookup_upsert_other fs _ _ (fun hc => hne hc.1)]
      · intro n' hn'
        have hn'rest : n' ∉ rest.map Prod.snd := by
          intro hx
          exact hn' (by simpa using Or.inr hx)
        have hne_n : n' ≠ n := by
          intro hc
          exact hn' (by simpa using Or.inl hc)
        rw [hnn n' hn'rest, read_upsert_other fs _ _ (fun hc => hne_n hc.2)]
      · intro x hx e' he'
        rcases List.mem_cons.mp hx with hx1 | hx2
        · have hxd : x = (d, n) := hx1
          subst hxd
          rw [hl] at he'
          obtain rfl : e' = e := by
            injection he' with h
            exact h.symm
          rw [hnn n hnfresh, read_upsert_same]
        · have hlk : (fs.upsert dst n e.content e.mtime).lookup x.1 x.2 = some e' := by
            rw [lookup_upsert_other fs _ _ (fun hc => hsrc' x hx2 hc.1)]
            exact he'
          exact hpp x hx2 e' hlk
      · rw [hdirs]
        rfl
      · rw [hcsvs]
        rfl

/-! ## Claims -/

/-- C10: for every file path, `file_ops.get_filename(file_path,
with_extension=False)` raises `TypeError` (the two-argument
`os.path.splitext` call) and never returns a value, so the training-job
dispatcher's derivation of a job name from a descriptor filename fails for
every descriptor file it finds. -/
theorem get_filename_always_typeError :
    (∀ file_path : Str, get_filename file_path false =
      .error (.typeError
        ("splitext() takes 1 positional argument but 2 were given").toList)) ∧
    (∀ json_file : Str, train_models_dag_training_name json_file =
      .error (.typeError
        ("splitext() takes 1 positional argument but 2 were given").toList)) := by
  constructor
  · intro file_path
    rfl
  · intro json_file
    rfl

/-- C8: when writing the first generated `pipeline.config` fails with an
`IOError`, `generate_model_config` logs and then executes `raise e` with `e`
unbound, so the exception that actually propagates is a `NameError`, not the
`IOError` the spec (and the function's own docstring) promise. -/
theorem generate_model_config_write_failure_nameError :
    generate_model_config (fun _ => true) ("training").toList ("repo").toList
        ("m1").toList ("NUM_CLASSES").toList ("3").toList ("gs://b").toList
        ("24").toList ("100").toList fsEmpty =
      .err (.nameError ("e").toList) fsEmpty ∧
    generate_model_config (fun _ => true) ("training").toList ("repo").toList
        ("m1").toList ("NUM_CLASSES").toList ("3").toList ("gs://b").toList
        ("24").toList ("100").toList fsEmpty ≠
      .err .ioError fsEmpty := by
  constructor
  · rfl
  · decide

/-- C7 (counterexample): resolving an absent project name raises
`ValueError("Project name not found")`, not the `NotFoundError` the claim
names. -/
theorem get_specific_project_id_valueError_cex :
    get_specific_project_id demoProjects ("missing").toList =
      .error (.valueError ("Project name not found").toList) ∧
    exceptIsNotFoundError
      (get_specific_project_id demoProjects ("missing").toList) = false := by
  constructor
  · rfl
  · rfl

/-- C7 (amended): when some project in the list has the requested name,
resolution returns the id of the first such project; when none does, it fails
with `ValueError("Project name not found")` (a not-found condition, but not
the labeling library's `NotFoundError` type). -/
theorem get_specific_project_id_spec (projects : List Project) (project_name : Str) :
    ((∃ p ∈ projects, p.name = project_name) →
      ∃ p, p ∈ projects ∧ p.name = project_name ∧
        get_specific_project_id projects project_name = .ok p.id) ∧
    ((∀ p ∈ projects, p.name ≠ project_name) →
      get_specific_project_id projects project_name =
        .error (.valueError ("Project name not found").toList)) := by
  constructor
  · rintro ⟨p, hp, hname⟩
    have hsome : (projects.find? (fun q => q.name == project_name)).isSome := by
      rw [List.find?_isSome]
      exact ⟨p, hp, by simpa using hname⟩
    cases hq : projects.find? (fun q => q.name == project_name) with
    | none => rw [hq] at hsome; exact absurd hsome (by simp)
    | some q =>
      refine ⟨q, List.mem_of_find?_eq_some hq, ?_, ?_⟩
      · have := List.find?_some hq
        simpa using this
      · rw [get_specific_project_id, hq]
  · intro hnone
    have hq : projects.find? (fun q => q.name == project_name) = none := by
      rw [List.find?_eq_none]
      intro p hp
      simpa using hnone p hp
    rw [get_specific_project_id, hq]

/-- C7 (witness). -/
theorem get_specific_project_id_spec_witness :
    ∃ p, p ∈ demoProjects ∧ p.name = ("proj1").toList ∧
      get_specific_project_id demoProjects ("proj1").toList = .ok p.id :=
  (get_specific_project_id_spec demoProjects (("proj1").toList)).1
    (by decide)

/-- C6 (counterexample): a parse failure is not swallowed — an anchor node
without an `href` attribute makes the catalog refresh propagate a `KeyError`
instead of returning normally. -/
theorem download_reference_model_list_keyError_cex :
    download_reference_model_list_as_csv (.ok [⟨[], []⟩]) ("u").toList
        ("models.csv").toList fsEmpty =
      .err (.keyError ("href").toList) fsEmpty := by
  rfl

/-- C6 (amended): the catalog refresh swallows network failures
(`requests.exceptions.RequestException`), returning normally with the CSV
untouched; but a parse failure propagates to the caller, and a successful
parse overwrites the CSV. -/
theorem download_reference_model_list_spec (url base_model_csv : Str) (fs : FS)
    (links : List LinkNode) :
    (download_reference_model_list_as_csv .exn url base_model_csv fs = .ok () fs) ∧
    (∀ e, parse_downloaded_model_file_list_response links = .error e →
      download_reference_model_list_as_csv (.ok links) url base_model_csv fs =
        .err e fs) ∧
    (∀ rows, parse_downloaded_model_file_list_response links = .ok rows →
      download_reference_model_list_as_csv (.ok links) url base_model_csv fs =
        .ok () (fs.writeCsv base_model_csv rows)) := by
  refine ⟨rfl, ?_, ?_⟩
  · intro e he
    rw [download_reference_model_list_as_csv, he]
  · intro rows hrows
    rw [download_reference_model_list_as_csv, hrows]

/-- C6 (witness). -/
theorem download_reference_model_list_spec_witness :
    download_reference_model_list_as_csv .exn ("u").toList ("models.csv").toList
        fsEmpty = .ok () fsEmpty ∧
    download_reference_model_list_as_csv (.ok [⟨[], []⟩]) ("u").toList
        ("models.csv").toList fsEmpty = .err (.keyError ("href").toList) fsEmpty := by
  constructor
  · exact (download_reference_model_list_spec (("u").toList) (("models.csv").toList)
      fsEmpty []).1
  · exact (download_reference_model_list_spec (("u").toList) (("models.csv").toList)
      fsEmpty [⟨[], []⟩]).2.1 (.keyError (("href").toList)) (by rfl)

/-- C9: `validate_requested_model_exist_in_model_zoo_list` raises `ValueError`
for an empty required-models list, raises `ValueError` when some requested
name is absent from the catalog's unique `model_name` set, and returns
normally when the list is nonempty and every requested name is present. -/
theorem validate_requested_models_spec (base_models_csv : Str)
    (required_base_models : List Str) (fs : FS) (df : List CatalogRow)
    (hcsv : fs.readCsv base_models_csv = some df) :
    (required_base_models = [] →
      validate_requested_model_exist_in_model_zoo_list base_models_csv
          required_base_models fs =
        .err (.valueError ("Airflow variable training_required_base_models should contain at least one model to train").toList) fs) ∧
    (required_base_models ≠ [] →
      (∃ r ∈ required_base_models, r ∉ (df.map CatalogRow.model_name).dedup) →
      validate_requested_model_exist_in_model_zoo_list base_models_csv
          required_base_models fs =
        .err (.valueError ("Required model {required_model} does not exist in the official tensorflow model zoo").toList) fs) ∧
    (required_base_models ≠ [] →
      (∀ r ∈ required_base_models, r ∈ (df.map CatalogRow.model_name).dedup) →
      validate_requested_model_exist_in_model_zoo_list base_models_csv
          required_base_models fs = .ok () fs) := by
  refine ⟨?_, ?_, ?_⟩
  · rintro rfl
    simp only [validate_requested_model_exist_in_model_zoo_list, hcsv]
    rfl
  · intro hne hmissing
    simp only [validate_requested_model_exist_in_model_zoo_list, hcsv]
    have hlen : ¬ required_base_models.length ≤ 0 := by
      cases required_base_models with
      | nil => exact absurd rfl hne
      | cons a l => simp
    rw [if_neg hlen]
    have hfind : (required_base_models.find? (fun r =>
        !((df.map CatalogRow.model_name).dedup.contains r))).isSome := by
      rw [List.find?_isSome]
      obtain ⟨r, hr, hnot⟩ := hmissing
      refine ⟨r, hr, ?_⟩
      simp only [Bool.not_eq_true']
      rw [Bool.eq_false_iff]
      intro hc
      exact hnot (by simpa using hc)
    cases hq : required_base_models.find? (fun r =>
        !((df.map CatalogRow.model_name).dedup.contains r)) with
    | none => rw [hq] at hfind; exact absurd hfind (by simp)
    | some q => rfl
  · intro hne hall
    simp only [validate_requested_model_exist_in_model_zoo_list, hcsv]
    have hlen : ¬ required_base_models.length ≤ 0 := by
      cases required_base_models with
      | nil => exact absurd rfl hne
      | cons a l => simp
    rw [if_neg hlen]
    have hq : required_base_models.find? (fun r =>
        !((df.map CatalogRow.model_name).dedup.contains r)) = none := by
      rw [List.find?_eq_none]
      intro r hr
      simp only [Bool.not_eq_true', Bool.not_eq_false]
      exact List.elem_eq_true_of_mem (hall r hr)
    rw [hq]

/-- C9 (witness). -/
theorem validate_requested_models_spec_witness :
    fsModelPresent.readCsv ("models.csv").toList ≠ none ∧
    validate_requested_model_exist_in_model_zoo_list ("models.csv").toList
        [("SSD MobileNet v2").toList] fsModelPresent = .ok () fsModelPresent := by
  constructor
  · decide
  · exact (validate_requested_models_spec (("models.csv").toList)
      [("SSD MobileNet v2").toList] fsModelPresent
      [⟨some (("2020_01_01").toList), ("ssd_mobilenet_v2").toList,
        ("ssd_mobilenet_v2.tar.gz").toList,
        ("http://download.tensorflow.org/models/object_detection/ssd_mobilenet_v2.tar.gz").toList,
        ("SSD MobileNet v2").toList⟩]
      (by decide)).2.2 (by decide) (by decide)

theorem downloadLoop_all_present (net : Str → NetResult)
    (unpack : Str → Str → FS → FS) (folder : Str) (subs : List Str) :
    ∀ (rows : List CatalogRow) (fs : FS),
      (∀ row ∈ rows, row.model_folder_name ∈ subs) →
      downloadLoop net unpack folder subs rows fs = fs := by
  intro rows
  induction rows with
  | nil => intro fs _; rfl
  | cons row rest ih =>
    intro fs hall
    rw [downloadLoop, if_pos (hall row (List.mem_cons_self _ _))]
    exact ih fs (fun r hr => hall r (List.mem_cons_of_mem _ hr))

/-- C4: re-running the base-model sync against a models directory that already
contains a subfolder named `model_folder_name` for every selected catalog
entry performs zero downloads (the result does not depend on the network or
extraction oracles), creates no folders, and leaves the filesystem unchanged:
every entry whose folder is present is skipped. -/
theorem download_and_extract_idempotent (net : Str → NetResult)
    (unpack : Str → Str → FS → FS) (base_model_csv base_model_folder : Str)
    (required_base_models : Option (List Str)) (fs : FS)
    (catalog : List CatalogRow)
    (hcsv : fs.readCsv base_model_csv = some catalog)
    (hall : ∀ row ∈ selectedCatalogRows required_base_models catalog,
      row.model_folder_name ∈
        spec_get_subfolders_names_in_directory fs base_model_folder) :
    download_and_extract_base_model net unpack fileOpsSpec base_model_csv
      base_model_folder required_base_models fs = .ok () fs := by
  simp only [download_and_extract_base_model, hcsv, fileOpsSpec]
  show PyResult.ok () (downloadLoop net unpack base_model_folder
    (spec_get_subfolders_names_in_directory fs base_model_folder)
    (selectedCatalogRows required_base_models catalog) fs) = _
  rw [downloadLoop_all_present net unpack base_model_folder _ _ fs hall]

/-- C4 (witness). -/
theorem download_and_extract_idempotent_witness :
    download_and_extract_base_model (fun _ => .exn) (fun _ _ f => f) fileOpsSpec
        ("models.csv").toList ("models").toList
        (some [("SSD MobileNet v2").toList]) fsModelPresent =
      .ok () fsModelPresent :=
  download_and_extract_idempotent (fun _ => .exn) (fun _ _ f => f)
    (("models.csv").toList) (("models").toList)
    (some [("SSD MobileNet v2").toList]) fsModelPresent
    [⟨some (("2020_01_01").toList), ("ssd_mobilenet_v2").toList,
      ("ssd_mobilenet_v2.tar.gz").toList,
      ("http://download.tensorflow.org/models/object_detection/ssd_mobilenet_v2.tar.gz").toList,
      ("SSD MobileNet v2").toList⟩]
    (by decide) (by decide)

/-- C5 (counterexample): not every invocation of the listed operations raises
`AttributeError` — `copy_base_model_to_training_folder` on a catalog that
lacks the requested display name raises `IndexError` first (the `.iloc[0]`
lookup precedes the missing-helper call). -/
theorem assembly_ops_attributeError_cex :
    copy_base_model_to_training_folder fileOpsAsIs ("M").toList
        ("models.csv").toList ("models").toList ("dest").toList
        fsCsvEmptyCatalog = .err .indexError fsCsvEmptyCatalog ∧
    pyResultIsAttributeError
      (copy_base_model_to_training_folder fileOpsAsIs ("M").toList
        ("models.csv").toList ("models").toList ("dest").toList
        fsCsvEmptyCatalog) = false := by
  constructor
  · rfl
  · rfl

/-- C5 (amended): with the `file_ops` module as it exists in the source, every
invocation of `copy_images_to_output` and `compare_label_map_file` raises
`AttributeError` with the filesystem untouched; every invocation of the two
TFRecord merges raises `AttributeError` after creating only the empty
`train`/`val` destination folders; `download_and_extract_base_model` raises
`AttributeError` whenever its catalog CSV loads; and the two base-model copies
raise `AttributeError` (after creating only the destination folder) whenever
the catalog loads and contains the requested name — otherwise the earlier
`.iloc[0]` lookup raises `IndexError` first.  No copy/merge/sync operation can
complete. -/
theorem assembly_ops_attributeError :
    (∀ (a b c : Str) (fs : FS),
      copy_images_to_output fileOpsAsIs a b c fs =
        .err (.attributeError ("get_directory_subfolders_subset").toList) fs) ∧
    (∀ (a b : Str) (fs : FS),
      compare_label_map_file fileOpsAsIs a b fs =
        .err (.attributeError ("get_directory_subfolders_subset").toList) fs) ∧
    (∀ (net : Str → NetResult) (unpack : Str → Str → FS → FS) (csv folder : Str)
      (req : Option (List Str)) (fs : FS) (catalog : List CatalogRow),
      fs.readCsv csv = some catalog →
      download_and_extract_base_model net unpack fileOpsAsIs csv folder req fs =
        .err (.attributeError ("get_subfolders_names_in_directory").toList) fs) ∧
    (∀ (a b c : Str) (fs : FS),
      copy_tf_records_to_training_folder fileOpsAsIs a b c fs =
        .err (.attributeError ("get_directory_subfolders_subset").toList)
          ((fs.mkdirEnsure (b ++ ("/train").toList)).mkdirEnsure
            (b ++ ("/val").toList))) ∧
    (∀ (a b c : Str) (fs : FS),
      copy_tf_records_to_model_repo fileOpsAsIs a b c fs =
        .err (.attributeError ("get_directory_subfolders_subset").toList)
          ((fs.mkdirEnsure (b ++ ("/train").toList)).mkdirEnsure
            (b ++ ("/val").toList))) ∧
    (∀ (base csv folder dest : Str) (fs : FS) (df : List CatalogRow)
      (row : CatalogRow) (rows : List CatalogRow),
      fs.readCsv csv = some df →
      df.filter (fun r => r.model_name == base) = row :: rows →
      copy_base_model_to_training_folder fileOpsAsIs base csv folder dest fs =
        .err (.attributeError ("copy_files_from_folder").toList)
          (fs.mkdirEnsure dest)) ∧
    (∀ (base csv folder dest : Str) (fs : FS) (df : List CatalogRow)
      (row : CatalogRow) (rows : List CatalogRow),
      fs.readCsv csv = some df →
      df.filter (fun r => r.model_name == base) = row :: rows →
      copy_base_model_to_model_repo_folder fileOpsAsIs base csv folder dest fs =
        .err (.attributeError ("copy_files_from_folder").toList)
          (fs.mkdirEnsure dest)) := by
  refine ⟨fun a b c fs => rfl, fun a b fs => rfl, ?_, fun a b c fs => rfl,
    fun a b c fs => rfl, ?_, ?_⟩
  · intro net unpack csv folder req fs catalog hcsv
    simp only [download_and_extract_base_model, hcsv, fileOpsAsIs]
  · intro base csv folder dest fs df row rows hcsv hfilter
    simp only [copy_base_model_to_training_folder, hcsv, hfilter, fileOpsAsIs]
  · intro base csv folder dest fs df row rows hcsv hfilter
    simp only [copy_base_model_to_model_repo_folder, hcsv, hfilter, fileOpsAsIs]

/-- C5 (witness). -/
theorem assembly_ops_attributeError_witness :
    download_and_extract_base_model (fun _ => .exn) (fun _ _ f => f) fileOpsAsIs
        ("models.csv").toList ("models").toList none fsModelPresent =
      .err (.attributeError ("get_subfolders_names_in_directory").toList)
        fsModelPresent ∧
    copy_base_model_to_training_folder fileOpsAsIs ("SSD MobileNet v2").toList
        ("models.csv").toList ("models").toList ("dest").toList fsModelPresent =
      .err (.attributeError ("copy_files_from_folder").toList)
        (fsModelPresent.mkdirEnsure ("dest").toList) := by
  constructor
  · exact assembly_ops_attributeError.2.2.1 (fun _ => .exn) (fun _ _ f => f)
      (("models.csv").toList) (("models").toList) none fsModelPresent
      [⟨some (("2020_01_01").toList), ("ssd_mobilenet_v2").toList,
        ("ssd_mobilenet_v2.tar.gz").toList,
        ("http://download.tensorflow.org/models/object_detection/ssd_mobilenet_v2.tar.gz").toList,
        ("SSD MobileNet v2").toList⟩]
      (by decide)
  · exact assembly_ops_attributeError.2.2.2.2.2.1 (("SSD MobileNet v2").toList)
      (("models.csv").toList) (("models").toList) (("dest").toList) fsModelPresent
      [⟨some (("2020_01_01").toList), ("ssd_mobilenet_v2").toList,
        ("ssd_mobilenet_v2.tar.gz").toList,
        ("http://download.tensorflow.org/models/object_detection/ssd_mobilenet_v2.tar.gz").toList,
        ("SSD MobileNet v2").toList⟩]
      ⟨some (("2020_01_01").toList), ("ssd_mobilenet_v2").toList,
        ("ssd_mobilenet_v2.tar.gz").toList,
        ("http://download.tensorflow.org/models/object_detection/ssd_mobilenet_v2.tar.gz").toList,
        ("SSD MobileNet v2").toList⟩
      [] (by decide) (by decide)

/-- C2 (counterexample): two matching subfolders whose label maps have equal
size and modification time but different bytes are reported as a match —
`filecmp.cmp`'s default shallow comparison never reads them, so "match" does
not coincide with byte-identity. -/
theorem compare_label_map_file_shallow_cex :
    compare_label_map_file fileOpsSpec ("tf").toList ("camA").toList
        fsShallowCmp = .ok (some true) fsShallowCmp ∧
    fsShallowCmp.read ("tf/camA_1").toList ("labelmap.pbtxt").toList ≠
      fsShallowCmp.read ("tf/camA_2").toList ("labelmap.pbtxt").toList := by
  constructor
  · rfl
  · decide

/-- C2 (amended): with fewer than two matching subfolders,
`compare_label_map_file` reports insufficient data (returns `None`); with two
or more, it returns match exactly when every matching subfolder's first
`.pbtxt` compares equal to the first subfolder's under `filecmp.cmp`'s default
shallow comparison (equal size and mtime are deemed equal without reading
bytes; otherwise equal size and equal bytes), and mismatch otherwise; a
matching subfolder without any `.pbtxt` raises `IndexError`. -/
theorem compare_label_map_file_shallow_spec (root src : Str) (fs : FS) :
    ((spec_get_directory_subfolders_subset fs root src).length ≤ 1 →
      compare_label_map_file fileOpsSpec root src fs = .ok none fs) ∧
    (∀ (lm : FileEntry) (lrest : List FileEntry),
      (spec_get_directory_subfolders_subset fs root src).length > 1 →
      collectFirstPbtxt fs (spec_get_directory_subfolders_subset fs root src) =
        some (lm :: lrest) →
      compare_label_map_file fileOpsSpec root src fs =
        .ok (some ((lm :: lrest).all (fun x => filecmpCmp x lm))) fs) ∧
    ((spec_get_directory_subfolders_subset fs root src).length > 1 →
      collectFirstPbtxt fs (spec_get_directory_subfolders_subset fs root src) =
        none →
      compare_label_map_file fileOpsSpec root src fs = .err .indexError fs) := by
  refine ⟨?_, ?_, ?_⟩
  · intro hle
    simp only [compare_label_map_file, fileOpsSpec]
    rw [if_neg (by omega)]
  · intro lm lrest hgt hcol
    simp only [compare_label_map_file, fileOpsSpec]
    rw [if_pos hgt, hcol]
  · intro hgt hcol
    simp only [compare_label_map_file, fileOpsSpec]
    rw [if_pos hgt, hcol]

/-- C2 (witness). -/
theorem compare_label_map_file_shallow_spec_witness :
    compare_label_map_file fileOpsSpec ("tf").toList ("camA").toList
        fsShallowCmp =
      .ok (some
        ([⟨("tf/camA_1").toList, ("labelmap.pbtxt").toList, ("aa").toList, 5⟩,
          ⟨("tf/camA_2").toList, ("labelmap.pbtxt").toList, ("ab").toList, 5⟩].all
          (fun x => filecmpCmp x
            ⟨("tf/camA_1").toList, ("labelmap.pbtxt").toList, ("aa").toList, 5⟩)))
        fsShallowCmp :=
  (compare_label_map_file_shallow_spec (("tf").toList) (("camA").toList)
    fsShallowCmp).2.1
    ⟨("tf/camA_1").toList, ("labelmap.pbtxt").toList, ("aa").toList, 5⟩
    [⟨("tf/camA_2").toList, ("labelmap.pbtxt").toList, ("ab").toList, 5⟩]
    (by decide) (by decide)

theorem ne_append_of_ne_nil {a x : Str} (hx : x ≠ []) : a ≠ a ++ x := by
  intro h
  have : a.length = a.length + x.length := by
    conv_lhs => rw [h]
    simp
  have := List.length_pos.mpr hx
  omega

theorem append_ne_of_ne {a : Str} {x y : Str} (h : x ≠ y) : a ++ x ≠ a ++ y := by
  intro hc
  exact h (List.append_cancel_left hc)

/-- C3: the training-variant TFRecord merge copies every `*_train.record` of
the matching subfolders into the destination `train` folder and every
`*_val.record` into the destination `val` folder, writes the contents of the
first discovered `.pbtxt` (and only that one) to the destination
`labelmap.pbtxt`, and raises `IndexError` when no `.pbtxt` exists in any
matching subfolder.  The destination folders are assumed distinct from the
source subfolders and the copied record names pairwise distinct (colliding
names would overwrite one another in the flat destination). -/
theorem copy_tf_records_training_spec
    (tf_records_folder model_training_tf_records_folder video_source : Str)
    (fs : FS) (hwf : fs.Wf)
    (subs : List Str)
    (hsubs : subs = spec_get_directory_subfolders_subset
      ((fs.mkdirEnsure (model_training_tf_records_folder ++ ("/train").toList)).mkdirEnsure
        (model_training_tf_records_folder ++ ("/val").toList))
      tf_records_folder video_source)
    (trains vals lmaps : List FileEntry)
    (htrains : trains = subs.bind (fun d =>
      (((fs.mkdirEnsure (model_training_tf_records_folder ++ ("/train").toList)).mkdirEnsure
        (model_training_tf_records_folder ++ ("/val").toList))).glob d
        ("_train.record").toList))
    (hvals : vals = subs.bind (fun d =>
      (((fs.mkdirEnsure (model_training_tf_records_folder ++ ("/train").toList)).mkdirEnsure
        (model_training_tf_records_folder ++ ("/val").toList))).glob d
        ("_val.record").toList))
    (hlmaps : lmaps = subs.bind (fun d =>
      (((fs.mkdirEnsure (model_training_tf_records_folder ++ ("/train").toList)).mkdirEnsure
        (model_training_tf_records_folder ++ ("/val").toList))).glob d
        (".pbtxt").toList))
    (hdisj : ∀ d ∈ subs,
      d ≠ model_training_tf_records_folder ++ ("/train").toList ∧
      d ≠ model_training_tf_records_folder ++ ("/val").toList ∧
      d ≠ model_training_tf_records_folder)
    (hnodupT : (trains.map FileEntry.fname).Nodup)
    (hnodupV : (vals.map FileEntry.fname).Nodup) :
    (lmaps = [] → ∃ fsE,
      copy_tf_records_to_training_folder fileOpsSpec tf_records_folder
        model_training_tf_records_folder video_source fs = .err .indexError fsE) ∧
    (∀ (lm : FileEntry) (lrest : List FileEntry), lmaps = lm :: lrest →
      ∃ fsO,
        copy_tf_records_to_training_folder fileOpsSpec tf_records_folder
          model_training_tf_records_folder video_source fs = .ok () fsO ∧
        (∀ e ∈ trains,
          fsO.read (model_training_tf_records_folder ++ ("/train").toList) e.fname =
            some e.content) ∧
        (∀ e ∈ vals,
          fsO.read (model_training_tf_records_folder ++ ("/val").toList) e.fname =
            some e.content) ∧
        fsO.read model_training_tf_records_folder ("labelmap.pbtxt").toList =
          some lm.content) := by
  set trainDir := model_training_tf_records_folder ++ ("/train").toList with htd
  set valDir := model_training_tf_records_folder ++ ("/val").toList with hvd
  set fs1 := (fs.mkdirEnsure trainDir).mkdirEnsure valDir with hfs1
  have hwf1 : fs1.Wf := wf_mkdirEnsure (wf_mkdirEnsure hwf trainDir) valDir
  have htv : trainDir ≠ valDir := append_ne_of_ne (by decide)
  have htm : trainDir ≠ model_training_tf_records_folder :=
    fun h => ne_append_of_ne_nil (by decide) h.symm
  have hvm : valDir ≠ model_training_tf_records_folder :=
    fun h => ne_append_of_ne_nil (by decide) h.symm
  -- sources of the train loop
  have hmemT : ∀ e ∈ trains, e ∈ fs1.entries ∧ e.dir ∈ subs := by
    intro e he
    rw [htrains] at he
    obtain ⟨d, hd, hglob⟩ := List.mem_bind.mp he
    obtain ⟨hent, hdir⟩ := glob_mem hglob
    exact ⟨hent, hdir ▸ hd⟩
  have hmemV : ∀ e ∈ vals, e ∈ fs1.entries ∧ e.dir ∈ subs := by
    intro e he
    rw [hvals] at he
    obtain ⟨d, hd, hglob⟩ := List.mem_bind.mp he
    obtain ⟨hent, hdir⟩ := glob_mem hglob
    exact ⟨hent, hdir ▸ hd⟩
  have hmemL : ∀ e ∈ lmaps, e ∈ fs1.entries ∧ e.dir ∈ subs := by
    intro e he
    rw [hlmaps] at he
    obtain ⟨d, hd, hglob⟩ := List.mem_bind.mp he
    obtain ⟨hent, hdir⟩ := glob_mem hglob
    exact ⟨hent, hdir ▸ hd⟩
  -- run the train-record copy loop
  obtain ⟨fs2, hrun2, hfr2, hfl2, hnn2, hpp2, hdirs2, hcsvs2⟩ :=
    copyFilesLoop_spec (trains.map (fun e => (e.dir, e.fname))) trainDir fs1
      (by
        intro pr hpr
        obtain ⟨e, he, rfl⟩ := List.mem_map.mp hpr
        exact ((hdisj e.dir (hmemT e he).2).1))
      (by
        intro pr hpr
        obtain ⟨e, he, rfl⟩ := List.mem_map.mp hpr
        rw [lookup_of_mem_wf hwf1 (hmemT e he).1]
        rfl)
      (by simpa [List.map_map] using hnodupT)
  -- run the val-record copy loop
  obtain ⟨fs3, hrun3, hfr3, hfl3, hnn3, hpp3, hdirs3, hcsvs3⟩ :=
    copyFilesLoop_spec (vals.map (fun e => (e.dir, e.fname))) valDir fs2
      (by
        intro pr hpr
        obtain ⟨e, he, rfl⟩ := List.mem_map.mp hpr
        exact ((hdisj e.dir (hmemV e he).2).2.1))
      (by
        intro pr hpr
        obtain ⟨e, he, rfl⟩ := List.mem_map.mp hpr
        rw [hfl2 e.dir e.fname ((hdisj e.dir (hmemV e he).2).1)]
        rw [lookup_of_mem_wf hwf1 (hmemV e he).1]
        rfl)
      (by simpa [List.map_map] using hnodupV)
  constructor
  · intro hnil
    have hsc : subs.bind (fun d => fs1.glob d (".pbtxt").toList) = [] := by
      rw [← hlmaps]
      exact hnil
    refine ⟨fs3.write model_training_tf_records_folder ("labelmap.pbtxt").toList [], ?_⟩
    simp only [copy_tf_records_to_training_folder, fileOpsSpec]
    rw [← htd, ← hvd, ← hfs1, ← hsubs, ← htrains, ← hvals]
    simp only [hrun2, hrun3, hsc]
  · intro lm lrest hcons
    have hsc : subs.bind (fun d => fs1.glob d (".pbtxt").toList) = lm :: lrest := by
      rw [← hlmaps]
      exact hcons
    have hlmmem := hmemL lm (hcons ▸ List.mem_cons_self lm lrest)
    have hlmdisj := hdisj lm.dir hlmmem.2
    have hread4 : (fs3.write model_training_tf_records_folder
        ("labelmap.pbtxt").toList []).read lm.dir lm.fname = some lm.content := by
      rw [read_write_other fs3 _ (fun hc => hlmdisj.2.2 hc.1)]
      rw [hfr3 lm.dir lm.fname hlmdisj.2.1, hfr2 lm.dir lm.fname hlmdisj.1]
      rw [read_eq_lookup, lookup_of_mem_wf hwf1 hlmmem.1]
      rfl
    refine ⟨(fs3.write model_training_tf_records_folder ("labelmap.pbtxt").toList
      []).write model_training_tf_records_folder ("labelmap.pbtxt").toList
        lm.content, ?_, ?_, ?_, ?_⟩
    · simp only [copy_tf_records_to_training_folder, fileOpsSpec]
      rw [← htd, ← hvd, ← hfs1, ← hsubs, ← htrains, ← hvals]
      simp only [hrun2, hrun3, hsc, hread4]
    · intro e he
      have hdisje := hdisj e.dir (hmemT e he).2
      rw [read_write_other _ _ (fun hc => htm hc.1),
        read_write_other _ _ (fun hc => htm hc.1),
        hfr3 trainDir e.fname htv]
      exact hpp2 (e.dir, e.fname) (List.mem_map.mpr ⟨e, he, rfl⟩) e
        (lookup_of_mem_wf hwf1 (hmemT e he).1)
    · intro e he
      have hdisje := hdisj e.dir (hmemV e he).2
      rw [read_write_other _ _ (fun hc => hvm hc.1),
        read_write_other _ _ (fun hc => hvm hc.1)]
      refine hpp3 (e.dir, e.fname) (List.mem_map.mpr ⟨e, he, rfl⟩) e ?_
      rw [hfl2 e.dir e.fname hdisje.1]
      exact lookup_of_mem_wf hwf1 (hmemV e he).1
    · rw [read_write_same]

/-- C3 (witness). -/
theorem copy_tf_records_training_spec_witness :
    ∃ fsO,
      copy_tf_records_to_training_folder fileOpsSpec ("tf").toList
          ("training").toList ("camA").toList fsTfRecords = .ok () fsO ∧
      (∀ e ∈ [(⟨("tf/camA_1").toList, ("a_train.record").toList, ("recA").toList,
            2⟩ : FileEntry),
          ⟨("tf/camA_2").toList, ("b_train.record").toList, ("recB").toList, 4⟩],
        fsO.read (("training").toList ++ ("/train").toList) e.fname =
          some e.content) ∧
      (∀ e ∈ [(⟨("tf/camA_2").toList, ("b_val.record").toList, ("recV").toList,
            5⟩ : FileEntry)],
        fsO.read (("training").toList ++ ("/val").toList) e.fname =
          some e.content) ∧
      fsO.read ("training").toList ("labelmap.pbtxt").toList =
        some (FileEntry.content ⟨("tf/camA_1").toList, ("labelmap.pbtxt").toList,
          ("item0").toList, 1⟩) :=
  (copy_tf_records_training_spec (("tf").toList) (("training").toList)
    (("camA").toList) fsTfRecords (by decide)
    [("tf/camA_1").toList, ("tf/camA_2").toList] (by decide)
    [⟨("tf/camA_1").toList, ("a_train.record").toList, ("recA").toList, 2⟩,
     ⟨("tf/camA_2").toList, ("b_train.record").toList, ("recB").toList, 4⟩]
    [⟨("tf/camA_2").toList, ("b_val.record").toList, ("recV").toList, 5⟩]
    [⟨("tf/camA_1").toList, ("labelmap.pbtxt").toList, ("item0").toList, 1⟩,
     ⟨("tf/camA_2").toList, ("labelmap.pbtxt").toList, ("item0").toList, 3⟩]
    (by decide) (by decide) (by decide) (by decide) (by decide) (by decide)).2
    ⟨("tf/camA_1").toList, ("labelmap.pbtxt").toList, ("item0").toList, 1⟩
    [⟨("tf/camA_2").toList, ("labelmap.pbtxt").toList, ("item0").toList, 3⟩]
    (by decide)

theorem configSubstPairs_map_fst (mts nc bu bs ec : Str) :
    (configSubstPairs mts nc bu bs ec).map Prod.fst = substTokens := rfl

theorem configSubstPairs_length (mts nc bu bs ec : Str) :
    (configSubstPairs mts nc bu bs ec).length = 7 := rfl

/-- The text properties of the seven-fold substitution: every placeholder
token is absent from the final text, and — provided each placeholder still
occurs in the text when its own substitution step runs — every substituted
value occurs verbatim in the final text. -/
theorem generate_model_config_text_props
    (mts tmpl nc bu bs ec : Str)
    (hsafe : ∀ t ∈ substTokens, ∀ v ∈ configSubstValues mts nc bu bs ec,
      NoOverlap t v)
    (hstage : ∀ i (hi : i < (configSubstPairs mts nc bu bs ec).length),
      ((configSubstPairs mts nc bu bs ec).get ⟨i, hi⟩).1 <:+:
        substChain ((configSubstPairs mts nc bu bs ec).take i) tmpl) :
    (∀ t ∈ substTokens, ¬ t <:+: generate_model_config_text mts tmpl nc bu bs ec) ∧
    (∀ v ∈ configSubstValues mts nc bu bs ec,
      v <:+: generate_model_config_text mts tmpl nc bu bs ec) := by
  have hsafe' : ∀ t ∈ substTokens, ∀ pr ∈ configSubstPairs mts nc bu bs ec,
      NoOverlap t pr.2 := by
    intro t ht pr hpr
    refine hsafe t ht pr.2 ?_
    rw [configSubstValues]
    exact List.mem_map.mpr ⟨pr, hpr, rfl⟩
  have hsafe'' : ∀ pr ∈ configSubstPairs mts nc bu bs ec,
      ∀ v ∈ configSubstValues mts nc bu bs ec, NoOverlap pr.1 v := by
    intro pr hpr v hv
    refine hsafe pr.1 ?_ v hv
    rw [← configSubstPairs_map_fst mts nc bu bs ec]
    exact List.mem_map.mpr ⟨pr, hpr, rfl⟩
  have hget : ∀ (i : Nat) (hi : i < (configSubstPairs mts nc bu bs ec).length),
      ((configSubstPairs mts nc bu bs ec).get ⟨i, hi⟩).2 ∈
        configSubstValues mts nc bu bs ec := by
    intro i hi
    rw [configSubstValues]
    exact List.mem_map.mpr ⟨_, List.get_mem _ i hi, rfl⟩
  have habs : ∀ (i : Nat) (hi : i < (configSubstPairs mts nc bu bs ec).length),
      ¬ ((configSubstPairs mts nc bu bs ec).get ⟨i, hi⟩).1 <:+:
        substChain (configSubstPairs mts nc bu bs ec) tmpl := by
    intro i hi
    have htmem : ((configSubstPairs mts nc bu bs ec).get ⟨i, hi⟩).1 ∈ substTokens := by
      rw [← configSubstPairs_map_fst mts nc bu bs ec]
      exact List.mem_map.mpr ⟨_, List.get_mem _ i hi, rfl⟩
    exact substChain_pattern_absent i hi
      (hsafe' _ htmem _ (List.get_mem _ i hi))
      (fun pr hpr => hsafe' _ htmem pr (List.mem_of_mem_drop hpr))
  have hpres : ∀ (i : Nat) (hi : i < (configSubstPairs mts nc bu bs ec).length),
      ((configSubstPairs mts nc bu bs ec).get ⟨i, hi⟩).2 <:+:
        substChain (configSubstPairs mts nc bu bs ec) tmpl := by
    intro i hi
    have htmem : ((configSubstPairs mts nc bu bs ec).get ⟨i, hi⟩).1 ∈ substTokens := by
      rw [← configSubstPairs_map_fst mts nc bu bs ec]
      exact List.mem_map.mpr ⟨_, List.get_mem _ i hi, rfl⟩
    have hno := hsafe' _ htmem _ (List.get_mem _ i hi)
    exact substChain_value_present i hi hno.left_ne_nil hno.right_ne_nil
      (hstage i hi)
      (fun pr hpr => hsafe'' pr (List.mem_of_mem_drop hpr) _ (hget i hi))
  constructor
  · intro t ht
    simp only [substTokens, List.mem_cons, List.not_mem_nil, or_false] at ht
    rcases ht with rfl | rfl | rfl | rfl | rfl | rfl | rfl
    · exact habs 0 (by rw [configSubstPairs_length]; omega)
    · exact habs 1 (by rw [configSubstPairs_length]; omega)
    · exact habs 2 (by rw [configSubstPairs_length]; omega)
    · exact habs 3 (by rw [configSubstPairs_length]; omega)
    · exact habs 4 (by rw [configSubstPairs_length]; omega)
    · exact habs 5 (by rw [configSubstPairs_length]; omega)
    · exact habs 6 (by rw [configSubstPairs_length]; omega)
  · intro v hv
    simp only [configSubstValues, configSubstPairs, List.map_cons, List.map_nil,
      List.mem_cons, List.not_mem_nil, or_false] at hv
    rcases hv with rfl | rfl | rfl | rfl | rfl | rfl | rfl
    · exact hpres 0 (by rw [configSubstPairs_length]; omega)
    · exact hpres 1 (by rw [configSubstPairs_length]; omega)
    · exact hpres 2 (by rw [configSubstPairs_length]; omega)
    · exact hpres 3 (by rw [configSubstPairs_length]; omega)
    · exact hpres 4 (by rw [configSubstPairs_length]; omega)
    · exact hpres 5 (by rw [configSubstPairs_length]; omega)
    · exact hpres 6 (by rw [configSubstPairs_length]; omega)

set_option maxRecDepth 4000 in
/-- C1 (counterexample). -/
theorem generate_model_config_overlap_cex :
    (∀ t ∈ substTokens, t <:+: cexOverlapTemplate) ∧
    ¬ ("7777").toList <:+:
      generate_model_config_text ("m_2020").toList cexOverlapTemplate
        ("3").toList ("gs://bkt").toList ("24").toList ("7777").toList := by
  decide

/-- C1 (amended): when the writes succeed, `generate_model_config` writes one
and the same substituted text to both the training-tree and model-repo-tree
`pipeline.config` paths; that text contains zero occurrences of any of the
seven placeholder tokens; and — provided each placeholder still occurs when
its substitution step runs (token occurrences in the template must not
overlap one another) — it contains every substituted value verbatim.  The
`NoOverlap` hypothesis is the spec's guarantee that tokens are
"non-overlapping and non-recursive" with respect to the substituted values. -/
theorem generate_model_config_props
    (writeFail : Str → Bool)
    (model_training_folder model_repo_folder model_folder_ts model_config_template
     num_classes bucket_url training_batch_size training_epoch_count : Str)
    (fs : FS)
    (hwok : ∀ p, writeFail p = false)
    (hsafe : ∀ t ∈ substTokens,
      ∀ v ∈ configSubstValues model_folder_ts num_classes bucket_url
        training_batch_size training_epoch_count, NoOverlap t v)
    (hstage : ∀ i (hi : i < (configSubstPairs model_folder_ts num_classes bucket_url
        training_batch_size training_epoch_count).length),
      ((configSubstPairs model_folder_ts num_classes bucket_url
        training_batch_size training_epoch_count).get ⟨i, hi⟩).1 <:+:
        substChain ((configSubstPairs model_folder_ts num_classes bucket_url
          training_batch_size training_epoch_count).take i) model_config_template) :
    ∃ fsO,
      generate_model_config writeFail model_training_folder model_repo_folder
        model_folder_ts model_config_template num_classes bucket_url
        training_batch_size training_epoch_count fs = .ok () fsO ∧
      fsO.read model_training_folder ("pipeline.config").toList =
        some (generate_model_config_text model_folder_ts model_config_template
          num_classes bucket_url training_batch_size training_epoch_count) ∧
      fsO.read model_repo_folder ("pipeline.config").toList =
        some (generate_model_config_text model_folder_ts model_config_template
          num_classes bucket_url training_batch_size training_epoch_count) ∧
      (∀ t ∈ substTokens,
        ¬ t <:+: generate_model_config_text model_folder_ts model_config_template
          num_classes bucket_url training_batch_size training_epoch_count) ∧
      (∀ v ∈ configSubstValues model_folder_ts num_classes bucket_url
          training_batch_size training_epoch_count,
        v <:+: generate_model_config_text model_folder_ts model_config_template
          num_classes bucket_url training_batch_size training_epoch_count) := by
  obtain ⟨habs, hpres⟩ := generate_model_config_text_props model_folder_ts
    model_config_template num_classes bucket_url training_batch_size
    training_epoch_count hsafe hstage
  refine ⟨(fs.write model_training_folder ("pipeline.config").toList
      (generate_model_config_text model_folder_ts model_config_template
        num_classes bucket_url training_batch_size
        training_epoch_count)).write model_repo_folder
      ("pipeline.config").toList
      (generate_model_config_text model_folder_ts model_config_template
        num_classes bucket_url training_batch_size training_epoch_count),
    ?_, ?_, ?_, habs, hpres⟩
  · simp only [generate_model_config, writeConfigLoop, hwok, Bool.false_eq_true,
      if_false]
  · by_cases hmm : model_training_folder = model_repo_folder
    · rw [hmm, read_write_same]
    · rw [read_write_other _ _ (fun hc => hmm hc.1), read_write_same]
  · rw [read_write_same]

set_option maxRecDepth 8000 in
/-- C1 (witness). -/
theorem generate_model_config_props_witness :
    ∃ fsO,
      generate_model_config (fun _ => false) ("training").toList ("repo").toList
        ("m-2020").toList
        ("a NUM_CLASSES b PRE_TRAINED_MODEL_CHECKPOINT_PATH c LABEL_MAP_PATH d TRAIN_TF_RECORD_PATH e VAL_TF_RECORD_PATH f TRAINING_BATCH_SIZE g TRAINING_EPOCH_COUNT h").toList
        ("3").toList ("gs://bkt").toList ("24").toList ("99").toList fsEmpty =
        .ok () fsO ∧
      fsO.read ("training").toList ("pipeline.config").toList =
        some (generate_model_config_text ("m-2020").toList
          ("a NUM_CLASSES b PRE_TRAINED_MODEL_CHECKPOINT_PATH c LABEL_MAP_PATH d TRAIN_TF_RECORD_PATH e VAL_TF_RECORD_PATH f TRAINING_BATCH_SIZE g TRAINING_EPOCH_COUNT h").toList
          ("3").toList ("gs://bkt").toList ("24").toList ("99").toList) ∧
      fsO.read ("repo").toList ("pipeline.config").toList =
        some (generate_model_config_text ("m-2020").toList
          ("a NUM_CLASSES b PRE_TRAINED_MODEL_CHECKPOINT_PATH c LABEL_MAP_PATH d TRAIN_TF_RECORD_PATH e VAL_TF_RECORD_PATH f TRAINING_BATCH_SIZE g TRAINING_EPOCH_COUNT h").toList
          ("3").toList ("gs://bkt").toList ("24").toList ("99").toList) ∧
      (∀ t ∈ substTokens,
        ¬ t <:+: generate_model_config_text ("m-2020").toList
          ("a NUM_CLASSES b PRE_TRAINED_MODEL_CHECKPOINT_PATH c LABEL_MAP_PATH d TRAIN_TF_RECORD_PATH e VAL_TF_RECORD_PATH f TRAINING_BATCH_SIZE g TRAINING_EPOCH_COUNT h").toList
          ("3").toList ("gs://bkt").toList ("24").toList ("99").toList) ∧
      (∀ v ∈ configSubstValues ("m-2020").toList ("3").toList ("gs://bkt").toList
          ("24").toList ("99").toList,
        v <:+: generate_model_config_text ("m-2020").toList
          ("a NUM_CLASSES b PRE_TRAINED_MODEL_CHECKPOINT_PATH c LABEL_MAP_PATH d TRAIN_TF_RECORD_PATH e VAL_TF_RECORD_PATH f TRAINING_BATCH_SIZE g TRAINING_EPOCH_COUNT h").toList
          ("3").toList ("gs://bkt").toList ("24").toList ("99").toList) :=
  generate_model_config_props (fun _ => false) (("training").toList)
    (("repo").toList) (("m-2020").toList)
    (("a NUM_CLASSES b PRE_TRAINED_MODEL_CHECKPOINT_PATH c LABEL_MAP_PATH d TRAIN_TF_RECORD_PATH e VAL_TF_RECORD_PATH f TRAINING_BATCH_SIZE g TRAINING_EPOCH_COUNT h").toList)
    (("3").toList) (("gs://bkt").toList) (("24").toList) (("99").toList) fsEmpty
    (fun _ => rfl) (by decide) (by decide)

end AirflowEtl
